import Mathlib

/-!
Verification of the market-impact-scanner pipeline specification against a
shallow embedding of the source code (app/database.py, app/analyzer.py,
app/archiver.py, app/discord_bot.py, app/api.py, app/feeds.py).

Conventions of the embedding:
* SQLite rows become the `Row` structure; NULLable columns become `Option`.
* Python string operations used by the code (split, strip, lower, upper,
  lexicographic comparison) are re-implemented over `List Char`, matching
  CPython semantics on the ASCII data the pipeline handles.
* Python `max(iterable, key=f)` (first maximal element wins) becomes `pyMax2`.
* Effectful provider calls (LLM backends, archival services) are passed in as
  explicit result parameters; the embedding tracks how many provider contacts
  a code path performs.
-/

/-! ## Python-semantics helpers -/

/-- Python `max` over `b :: l` with key `f`: fold keeping the current maximum,
replacing it only on a strictly larger key, so the first maximal element wins. -/
def pyMax2 {α β : Type} [LinearOrder β] (f : α → β) : α → List α → α
  | b, [] => b
  | b, y :: ys => pyMax2 f (if f y > f b then y else b) ys

/-- Python `max(l, key := f)` with a default for the empty list (the sources
only apply it to fixed non-empty lists). -/
def pyMaxD {α β : Type} [LinearOrder β] (f : α → β) (dflt : α) : List α → α
  | [] => dflt
  | x :: xs => pyMax2 f x xs

/-- Python `str.split(sep)` for a one-character separator, on char lists:
an empty input yields one empty field, and every separator starts a new field. -/
def splitOnChar (sep : Char) : List Char → List (List Char)
  | [] => [[]]
  | c :: cs =>
    let r := splitOnChar sep cs
    if c = sep then [] :: r
    else
      match r with
      | [] => [[c]]
      | h :: t => (c :: h) :: t

/-- Python whitespace predicate used by `str.strip()`. -/
def pySpace (c : Char) : Bool :=
  c = ' ' || c = '\t' || c = '\n' || c = '\r' || c = '\x0b' || c = '\x0c'

/-- Python `str.strip()`: drop whitespace from both ends. -/
def pyStrip (l : List Char) : List Char :=
  ((l.dropWhile pySpace).reverse.dropWhile pySpace).reverse

/-- Byte-wise (codepoint) strict comparison of char lists; this is how SQLite
compares TEXT values (memcmp over UTF-8, which preserves codepoint order). -/
def charListLt : List Char → List Char → Bool
  | [], [] => false
  | [], _ :: _ => true
  | _ :: _, [] => false
  | a :: as, b :: bs => if a < b then true else if b < a then false else charListLt as bs

/-- Strict TEXT comparison on strings, as performed by SQLite. -/
def strLt (a b : String) : Bool := charListLt a.data b.data

/-- Non-strict TEXT comparison on strings. -/
def strLe (a b : String) : Bool := !(charListLt b.data a.data)

/-- Python `str.upper()` restricted to ASCII, which is all the code compares. -/
def pyUpper (s : String) : String := ⟨s.data.map Char.toUpper⟩

/-- Python `str.lower()` restricted to ASCII. -/
def pyLower (s : String) : String := ⟨s.data.map Char.toLower⟩

/-- Test whether `p` is an initial segment of `s`. -/
def listStartsWith : List Char → List Char → Bool
  | [], _ => true
  | _ :: _, [] => false
  | p :: ps, c :: cs => p = c && listStartsWith ps cs

/-- Test whether `pat` occurs contiguously inside `s`. -/
def listContainsSub (pat : List Char) : List Char → Bool
  | [] => pat.isEmpty
  | c :: cs => listStartsWith pat (c :: cs) || listContainsSub pat cs

/-- Python `pat in s` substring test. -/
def pyInStr (pat s : String) : Bool := listContainsSub pat.data s.data

/-- Stable insertion of `x` into `l`: `x` is placed before the first element
`y` with `before x y`; with `before x y = key x ≥ key y` this realises a
stable descending sort, with `key x ≤ key y` a stable ascending sort. -/
def insOrd {α : Type} (before : α → α → Bool) (x : α) : List α → List α
  | [] => [x]
  | y :: ys => if before x y then x :: y :: ys else y :: insOrd before x ys

/-- Stable sort by the `before` comparator (insertion sort formulation, equal
to the result of the stable sorts performed by Python and modelled for the
ORDER BY clauses of the store). -/
def sortOrd {α : Type} (before : α → α → Bool) : List α → List α
  | [] => []
  | x :: xs => insOrd before x (sortOrd before xs)

/-! ## Classification backend (app/analyzer.py) -/

/-- Pydantic model `MarketImpactAnalysis` from app/analyzer.py. -/
structure MarketImpactAnalysis where
  impact_level : String
  impact_score : Int
  impact_summary : String
  affected_sectors : List String
  market_direction : String
deriving DecidableEq

/-- Backend selection `_get_backend` from app/analyzer.py: a configured Groq
credential selects "groq"; otherwise the local Ollama service is probed for a
model whose name contains the configured model prefix; otherwise "none".
`ollama_models` is `none` when the probe itself raises. -/
def _get_backend (groq_api_key : String) (ollama_models : Option (List String))
    (ollama_model : String) : String :=
  if groq_api_key ≠ "" then "groq"
  else
    match ollama_models with
    | none => "none"
    | some available =>
      if available.any (fun m =>
          pyInStr ⟨(splitOnChar ':' ollama_model.data).headD []⟩ m) then "ollama"
      else "none"

/-- `check_ollama_available` from app/analyzer.py. -/
def check_ollama_available (groq_api_key : String) (ollama_models : Option (List String))
    (ollama_model : String) : Bool :=
  _get_backend groq_api_key ollama_models ollama_model ≠ "none"

/-- Sanitization applied in `analyze_single_article` after a successful parse:
clamp the score with `max(0, min(100, s))` and coerce an impact level outside
the four enumerated values to "low". -/
def sanitize_analysis (a : MarketImpactAnalysis) : MarketImpactAnalysis :=
  let a1 := { a with impact_score := max 0 (min 100 a.impact_score) }
  if a1.impact_level = "high" ∨ a1.impact_level = "medium" ∨
      a1.impact_level = "low" ∨ a1.impact_level = "none" then a1
  else { a1 with impact_level := "low" }

/-- `analyze_single_article` from app/analyzer.py. The provider call (Groq or
Ollama chat plus schema validation) is abstracted by `provider_result`:
`none` when the call raises or the payload fails validation, `some a` for a
successfully parsed analysis. The second component counts provider contacts:
with no backend the function returns before any provider is reached. -/
def analyze_single_article (backend : String)
    (provider_result : Option MarketImpactAnalysis) :
    Option MarketImpactAnalysis × Nat :=
  if backend = "none" then (none, 0)
  else
    match provider_result with
    | none => (none, 1)
    | some analysis => (some (sanitize_analysis analysis), 1)

example : sanitize_analysis ⟨"high", 150, "s", [], "bullish"⟩ =
    ⟨"high", 100, "s", [], "bullish"⟩ := by decide

example : sanitize_analysis ⟨"extreme", -5, "s", [], "bearish"⟩ =
    ⟨"low", 0, "s", [], "bearish"⟩ := by decide

/-! ## Item Store (app/database.py) -/

/-- One row of the `articles` table created by `init_db`. NULLable columns are
`Option`; `impact_level` defaults to "unanalyzed" and `impact_score` to 0, and
the selection queries of the store require `impact_level` to be non-NULL, so
those two columns are modelled as non-optional. -/
structure Row where
  id : Nat
  title : String
  url : String
  source : String
  summary : Option String
  published_at : Option String
  fetched_at : String
  impact_level : String
  impact_score : Int
  impact_summary : Option String
  affected_sectors : Option String
  market_direction : Option String
  analyzed_at : Option String
deriving DecidableEq

/-- State of the store: the rows in insertion order plus the AUTOINCREMENT
counter that supplies the next rowid. -/
structure DBState where
  articles : List Row
  next_id : Nat
deriving DecidableEq

/-- Arguments of one `insert_article` call; `fetched_at` stands for the
`datetime.utcnow().isoformat()` value taken at call time. -/
structure InsertArgs where
  title : String
  url : String
  source : String
  summary : Option String
  published_at : Option String
  fetched_at : String
deriving DecidableEq

/-- Row created by a successful insert: classification and archival state at
their column defaults. -/
def rowOfInsert (c : InsertArgs) (id : Nat) : Row :=
  { id := id, title := c.title, url := c.url, source := c.source,
    summary := c.summary, published_at := c.published_at,
    fetched_at := c.fetched_at, impact_level := "unanalyzed",
    impact_score := 0, impact_summary := none, affected_sectors := none,
    market_direction := none, analyzed_at := none }

/-- Test whether the store already holds the URL (the UNIQUE constraint on
`url` is what raises `IntegrityError` in `insert_article`). -/
def hasUrl (st : DBState) (url : String) : Bool :=
  st.articles.any (fun r => r.url = url)

/-- `insert_article` from app/database.py: insert and return the new rowid, or
return the duplicate signal `none` when the UNIQUE constraint on `url` fires
(the `IntegrityError` branch), leaving the store unchanged. -/
def insert_article (st : DBState) (c : InsertArgs) : DBState × Option Nat :=
  if hasUrl st c.url then (st, none)
  else ({ articles := st.articles ++ [rowOfInsert c st.next_id],
          next_id := st.next_id + 1 }, some st.next_id)

/-- A sequence of `insert_article` calls, returning the final store and the
per-call results in order. -/
def run_inserts (st : DBState) : List InsertArgs → DBState × List (Option Nat)
  | [] => (st, [])
  | c :: cs =>
    let p := insert_article st c
    let q := run_inserts p.1 cs
    (q.1, p.2 :: q.2)

/-- `update_analysis` from app/database.py: set the five classification fields
and `analyzed_at` on the row with the given id (`now` stands for the
`datetime.utcnow().isoformat()` value taken inside the call). -/
def update_analysis (st : DBState) (article_id : Nat) (impact_level : String)
    (impact_score : Int) (impact_summary : String) (affected_sectors : String)
    (market_direction : String) (now : String) : DBState :=
  { st with articles := st.articles.map (fun r =>
      if r.id = article_id then
        { r with impact_level := impact_level, impact_score := impact_score,
                 impact_summary := some impact_summary,
                 affected_sectors := some affected_sectors,
                 market_direction := some market_direction,
                 analyzed_at := some now }
      else r) }

/-- Sort-field allow-list of `get_articles`. -/
def allowed_sort : List String :=
  ["published_at", "impact_score", "fetched_at", "source", "impact_level"]

/-- Fallback of the requested sort field performed by `get_articles`. -/
def effective_sort_by (sort_by : String) : String :=
  if sort_by ∈ allowed_sort then sort_by else "published_at"

/-- Fallback of the requested sort order performed by `get_articles`: an order
whose upper-casing is neither ASC nor DESC becomes "DESC"; otherwise the
original string is kept (SQL treats it case-insensitively). -/
def effective_sort_order (sort_order : String) : String :=
  if pyUpper sort_order = "ASC" ∨ pyUpper sort_order = "DESC" then sort_order
  else "DESC"

/-- SQLite ordering on a NULLable TEXT column: NULL sorts before every value. -/
def optStrLe : Option String → Option String → Bool
  | none, _ => true
  | some _, none => false
  | some x, some y => strLe x y

/-- Non-strict row comparison for ORDER BY on an allow-listed field; any other
field name falls to the `published_at` default, mirroring `effective_sort_by`
(the comparison is only ever used after that normalisation). -/
def field_le (field : String) (a b : Row) : Bool :=
  if field = "impact_score" then a.impact_score ≤ b.impact_score
  else if field = "fetched_at" then strLe a.fetched_at b.fetched_at
  else if field = "source" then strLe a.source b.source
  else if field = "impact_level" then strLe a.impact_level b.impact_level
  else optStrLe a.published_at b.published_at

/-- WHERE clause of `get_articles`: optional equality filters on
`impact_level` and `source`, each skipped for a missing, empty or "all"
value. -/
def articleFilter (impact_level source : Option String) (r : Row) : Bool :=
  (match impact_level with
   | none => true
   | some lvl => if lvl ≠ "" ∧ lvl ≠ "all" then r.impact_level = lvl else true) &&
  (match source with
   | none => true
   | some src => if src ≠ "" ∧ src ≠ "all" then r.source = src else true)

/-- ORDER BY comparator of `get_articles` for the already-normalised field
and order strings. -/
def rowBefore (sb so : String) (a b : Row) : Bool :=
  if pyUpper so = "ASC" then field_le sb a b else field_le sb b a

/-- `get_articles` from app/database.py: optional equality filters,
allow-listed ORDER BY, then OFFSET and LIMIT. -/
def get_articles (st : DBState) (impact_level source : Option String)
    (limit offset : Nat) (sort_by sort_order : String) : List Row :=
  ((sortOrd (rowBefore (effective_sort_by sort_by) (effective_sort_order sort_order))
      (st.articles.filter (articleFilter impact_level source))).drop offset).take limit

/-- `get_unanalyzed_articles` from app/database.py: unanalyzed rows, most
recently fetched first, limited. -/
def get_unanalyzed_articles (st : DBState) (limit : Nat) : List Row :=
  (sortOrd (fun a b => strLe b.fetched_at a.fetched_at)
    (st.articles.filter (fun r => r.impact_level = "unanalyzed"))).take limit

/-- `get_new_article_count_since` from app/database.py: rows with
`analyzed_at > since` (TEXT comparison; NULL compares false) and
`impact_level != 'unanalyzed'`. -/
def get_new_article_count_since (st : DBState) (since_iso : String) : Nat :=
  st.articles.countP (fun r =>
    (match r.analyzed_at with
     | some ts => strLt since_iso ts
     | none => false) && r.impact_level ≠ "unanalyzed")

/-! ## Sector-list parsing

The analyzer persists `affected_sectors` as `json.dumps(list_of_strings)`;
the aggregation engine (`get_market_summary`) and the dispatcher
(`classify_to_sector`, `_format_sectors`) each inline the same tolerant
read-back: try `json.loads(raw)`, and on a ValueError/TypeError fall back to
splitting on commas and stripping each piece. Note that `json.loads` succeeds
not only on arrays but on every JSON document: a raw value that is a bare
scalar literal (purely numeric text, or one of true/false/null/NaN/Infinity)
parses to a non-list value, and the source then raises an uncaught TypeError
at the later `for s in sectors` loop instead of taking the comma fallback.

The reader below, `jsonLoadsStringArray`, models only the outcomes in which
`json.loads` returns a list of strings: it succeeds on exactly the payload
shape `json.dumps` produces for a list of escape-free strings (including the
empty list). The error-aware layer further below (`jsonLoadsDoc`,
`sectorsOfRawE` and the E-suffixed consumers) additionally models the bare
scalar successes and the resulting uncaught TypeError, which is what the
aggregation and the dispatcher really do on such raw values. -/

/-- State of the scanner for a JSON array of simple strings. Modes: 0 expects
the opening quote of an element, 1 is inside a string, 2 is after a closing
quote (expects a comma or the closing bracket), 3 is after a comma (expects
the single space `json.dumps` emits), 4 is a completed array, 5 is failure. -/
structure JsonScanSt where
  mode : Nat
  curr : List Char
  out : List (List Char)
deriving DecidableEq

/-- One character step of the array scanner. -/
def jsonScanStep (st : JsonScanSt) (c : Char) : JsonScanSt :=
  if st.mode = 0 then
    if c = '"' then { st with mode := 1 } else { st with mode := 5 }
  else if st.mode = 1 then
    if c = '"' then { mode := 2, curr := [], out := st.out ++ [st.curr] }
    else if c = '\\' then { st with mode := 5 }
    else { st with curr := st.curr ++ [c] }
  else if st.mode = 2 then
    if c = ',' then { st with mode := 3 }
    else if c = ']' then { st with mode := 4 }
    else { st with mode := 5 }
  else if st.mode = 3 then
    if c = ' ' then { st with mode := 0 } else { st with mode := 5 }
  else { st with mode := 5 }

/-- Scan the characters following the opening bracket of a non-empty JSON
string array; succeeds only when the input is exactly the elements followed by
the closing bracket. -/
def jsonScanElems (s : List Char) : Option (List (List Char)) :=
  let st := s.foldl jsonScanStep ⟨0, [], []⟩
  if st.mode = 4 then some st.out else none

/-- Model of the list-of-strings outcomes of `json.loads` (see the section
comment): `some tags` on the exact `json.dumps` rendering of a list of
escape-free strings, `none` otherwise. A `none` here means only that the
document is not such an array; whether `json.loads` raises ValueError or
returns a non-list value on it is modelled by `jsonLoadsDoc` below. -/
def jsonLoadsStringArray (s : List Char) : Option (List String) :=
  match s with
  | c :: rest =>
    if c = '[' then
      if rest = [']'] then some []
      else (jsonScanElems rest).map (fun ls => ls.map (fun l => (⟨l⟩ : String)))
    else none
  | [] => none

/-- The tolerant sector read used (inlined identically) by
`get_market_summary` in app/database.py and by `classify_to_sector` and
`_format_sectors` in app/discord_bot.py: `json.loads`, falling back to
comma-split plus strip, keeping non-empty pieces. This total function models
the code only on raw values where `json.loads` yields a string list or
raises; on a bare scalar document the code raises instead of falling back,
which `sectorsOfRawE` below captures. -/
def parse_sectors (raw : String) : List String :=
  match jsonLoadsStringArray raw.data with
  | some l => l
  | none =>
    (((splitOnChar ',' raw.data).map pyStrip).filter (fun l => l ≠ [])).map
      (fun l => (⟨l⟩ : String))

/-- Sector list of a raw `affected_sectors` value including the falsiness
guard (`if not raw: continue` in the aggregation loop, `if not
affected_sectors_raw: return []` in the dispatcher): NULL and the empty
string contribute nothing. -/
def sectorsOfRaw : Option String → List String
  | none => []
  | some raw => if raw = "" then [] else parse_sectors raw

example : sectorsOfRaw (some "[\"Technology\", \"Real Estate\"]") =
    ["Technology", "Real Estate"] := by decide

example : sectorsOfRaw (some "Technology, Real Estate") =
    ["Technology", "Real Estate"] := by decide

example : sectorsOfRaw (some "Finance") = ["Finance"] := by decide

example : sectorsOfRaw (some "[]") = [] := by decide

/-! ## Aggregation Engine (`get_market_summary` in app/database.py) -/

/-- Fixed direction vocabulary, in the insertion order of the tally
dictionaries built by `get_market_summary` (which is the iteration order of
`max(d, key=d.get)` on them). -/
def dirList : List String := ["bullish", "bearish", "neutral", "mixed"]

/-- Rows selected by the aggregation query: classified rows ordered by
`impact_score` descending (ties keep store order). -/
def select_analyzed (rows : List Row) : List Row :=
  sortOrd (fun a b => b.impact_score ≤ a.impact_score)
    (rows.filter (fun r => r.impact_level ≠ "unanalyzed"))

/-- Direction tally: count of selected rows per direction value (a row whose
direction is NULL or outside `dirList` is counted nowhere). -/
def direction_count (analyzed : List Row) (d : String) : Nat :=
  analyzed.countP (fun a => a.market_direction = some d)

/-- Score-weighted direction tally: sum of `impact_score` per direction. -/
def direction_scores (analyzed : List Row) (d : String) : Int :=
  (analyzed.map (fun a =>
    if a.market_direction = some d then a.impact_score else 0)).sum

/-- Weighted overall direction: `max(direction_scores, key=direction_scores.get)`
over the four buckets (only reached on a non-empty selection). -/
def overall_direction (analyzed : List Row) : String :=
  pyMaxD (direction_scores analyzed) "bullish" dirList

/-- Impact-level tally. -/
def impact_count (analyzed : List Row) (lvl : String) : Nat :=
  analyzed.countP (fun a => a.impact_level = lvl)

/-- Sum of the scores of the selected rows (numerator of `avg_score`). -/
def score_sum (analyzed : List Row) : Int :=
  (analyzed.map (fun a => a.impact_score)).sum

/-- One reduced top-driver entry. -/
structure Driver where
  title : String
  url : String
  source : String
  impact_score : Int
  impact_level : String
  impact_summary : Option String
  market_direction : Option String
deriving DecidableEq

/-- Reduction of a row to its top-driver entry. -/
def driverOf (a : Row) : Driver :=
  { title := a.title, url := a.url, source := a.source,
    impact_score := a.impact_score, impact_level := a.impact_level,
    impact_summary := a.impact_summary,
    market_direction := a.market_direction }

/-- Top drivers: the first 5 rows of the score-descending selection. -/
def top_drivers (analyzed : List Row) : List Driver :=
  (analyzed.take 5).map driverOf

/-- Per-sector accumulator dictionary value: the four direction counters plus
the `count` and `total_score` keys. -/
structure SectorData where
  bullish : Nat
  bearish : Nat
  neutral : Nat
  mixed : Nat
  count : Nat
  total_score : Int
deriving DecidableEq

/-- Fresh accumulator (all counters zero). -/
def sdInit : SectorData :=
  { bullish := 0, bearish := 0, neutral := 0, mixed := 0, count := 0, total_score := 0 }

/-- One `for s in sectors` loop body applied to an accumulator: bump `count`,
add the score, and bump the key equal to the direction if present (the
dictionary also holds the `count` and `total_score` keys, so those two names
are matched as well, exactly as `if d in sector_data[s]` would). -/
def sdBump (sd : SectorData) (d : Option String) (score : Int) : SectorData :=
  let sd1 := { sd with count := sd.count + 1, total_score := sd.total_score + score }
  match d with
  | some dv =>
    if dv = "bullish" then { sd1 with bullish := sd1.bullish + 1 }
    else if dv = "bearish" then { sd1 with bearish := sd1.bearish + 1 }
    else if dv = "neutral" then { sd1 with neutral := sd1.neutral + 1 }
    else if dv = "mixed" then { sd1 with mixed := sd1.mixed + 1 }
    else if dv = "count" then { sd1 with count := sd1.count + 1 }
    else if dv = "total_score" then { sd1 with total_score := sd1.total_score + 1 }
    else sd1
  | none => sd1

/-- Update the insertion-ordered dictionary at key `s` (creating the entry at
the end when absent, as a Python dict does). -/
def sdictBump (m : List (String × SectorData)) (s : String) (d : Option String)
    (score : Int) : List (String × SectorData) :=
  match m with
  | [] => [(s, sdBump sdInit d score)]
  | (k, v) :: rest =>
    if k = s then (k, sdBump v d score) :: rest
    else (k, v) :: sdictBump rest s d score

/-- Contribution of one row: bump every sector occurrence of the parsed tag
list in order. -/
def sdictRow (m : List (String × SectorData)) (a : Row) : List (String × SectorData) :=
  (sectorsOfRaw a.affected_sectors).foldl
    (fun acc s => sdictBump acc s a.market_direction a.impact_score) m

/-- The `sector_data` dictionary after the aggregation loop. -/
def sector_data (analyzed : List Row) : List (String × SectorData) :=
  analyzed.foldl sdictRow []

/-- Per-direction counter of an accumulator, read at a direction name. -/
def sdDirCount (sd : SectorData) (d : String) : Nat :=
  if d = "bullish" then sd.bullish
  else if d = "bearish" then sd.bearish
  else if d = "neutral" then sd.neutral
  else sd.mixed

/-- Dominant direction of a sector:
`max(["bullish","bearish","neutral","mixed"], key=lambda k: data[k])`, a raw
vote count (not score-weighted). -/
def sdDominant (sd : SectorData) : String :=
  pyMaxD (sdDirCount sd) "bullish" dirList

/-- Published per-sector entry. `count` and `total_score` carry the reported
average exactly: the code reports `round(total_score / count, 1)` (0 when
`count` is 0), a function of these two fields, whose float rounding is kept
outside the embedding. -/
structure SectorInfo where
  direction : String
  count : Nat
  total_score : Int
deriving DecidableEq

/-- The `sector_sentiment` map: sectors ordered by accumulated score
descending (Python `sorted(..., reverse=True)` is stable, so ties keep
dictionary insertion order), each reduced to its dominant direction, count
and score data. -/
def sector_sentiment (analyzed : List Row) : List (String × SectorInfo) :=
  (sortOrd (fun a b => b.2.total_score ≤ a.2.total_score)
      (sector_data analyzed)).map
    (fun p => (p.1, { direction := sdDominant p.2, count := p.2.count,
                      total_score := p.2.total_score }))

/-- The aggregation snapshot. `total_analyzed` and `avg_sum` carry the
reported average score exactly: the code reports
`round(avg_sum / total_analyzed, 1)` in the non-empty case and 0 otherwise,
a function of these fields, whose float rounding is kept outside the
embedding. -/
structure MarketSummary where
  total_analyzed : Nat
  overall_direction : String
  dir_bullish : Nat
  dir_bearish : Nat
  dir_neutral : Nat
  dir_mixed : Nat
  imp_high : Nat
  imp_medium : Nat
  imp_low : Nat
  imp_none : Nat
  avg_sum : Int
  top_drivers : List Driver
  sector_sentiment : List (String × SectorInfo)
deriving DecidableEq

/-- Snapshot returned for an empty selection: fully populated zero values. -/
def emptySummary : MarketSummary :=
  { total_analyzed := 0, overall_direction := "neutral",
    dir_bullish := 0, dir_bearish := 0, dir_neutral := 0, dir_mixed := 0,
    imp_high := 0, imp_medium := 0, imp_low := 0, imp_none := 0,
    avg_sum := 0, top_drivers := [], sector_sentiment := [] }

/-- Snapshot computed from an already-selected row list. -/
def summarize (analyzed : List Row) : MarketSummary :=
  if analyzed = [] then emptySummary
  else
    { total_analyzed := analyzed.length,
      overall_direction := overall_direction analyzed,
      dir_bullish := direction_count analyzed "bullish",
      dir_bearish := direction_count analyzed "bearish",
      dir_neutral := direction_count analyzed "neutral",
      dir_mixed := direction_count analyzed "mixed",
      imp_high := impact_count analyzed "high",
      imp_medium := impact_count analyzed "medium",
      imp_low := impact_count analyzed "low",
      imp_none := impact_count analyzed "none",
      avg_sum := score_sum analyzed,
      top_drivers := top_drivers analyzed,
      sector_sentiment := sector_sentiment analyzed }

/-- `get_market_summary` (un-windowed call) from app/database.py: select the
classified rows score-descending and aggregate them. -/
def get_market_summary (rows : List Row) : MarketSummary :=
  summarize (select_analyzed rows)

/-! ## Serialized sector representations

`json_dumps` is the exact `json.dumps` rendering the analyzer persists for a
list of escape-free tag strings; `comma_join` is the comma-joined plain-text
rendering of the same tags. -/

/-- Body of `json.dumps` for a list of strings (separator is a comma and one
space). -/
def jsonBodyChars : List String → List Char
  | [] => []
  | [t] => '"' :: t.data ++ ['"']
  | t :: rest => '"' :: t.data ++ '"' :: ',' :: ' ' :: jsonBodyChars rest

/-- `json.dumps(tags)` for a list of escape-free strings. -/
def json_dumps (tags : List String) : String :=
  ⟨'[' :: jsonBodyChars tags ++ [']']⟩

/-- Characters of the comma-joined rendering (separator is a comma and one
space). -/
def commaJoinChars : List String → List Char
  | [] => []
  | [t] => t.data
  | t :: rest => t.data ++ ',' :: ' ' :: commaJoinChars rest

/-- Comma-joined rendering of a tag list. -/
def comma_join (tags : List String) : String := ⟨commaJoinChars tags⟩

example : json_dumps ["Technology", "Finance"] = "[\"Technology\", \"Finance\"]" := by decide

example : comma_join ["Technology", "Finance"] = "Technology, Finance" := by decide

/-! ## Batch classification (app/analyzer.py and the /api/analyze route) -/

/-- Batch statistics dictionary of `analyze_pending_articles`. -/
structure AnalyzeStats where
  analyzed : Nat
  failed : Nat
  total : Nat
deriving DecidableEq

/-- One iteration of the `analyze_pending_articles` loop: classify the
article (the per-article provider outcome is supplied by `oracle`, keyed by
article id); persist a success via `update_analysis` (sectors stored as
`json.dumps`), count a failure. The accumulator carries the store, the
statistics and the number of provider contacts so far. -/
def analyze_batch_step (backend : String)
    (oracle : Nat → Option MarketImpactAnalysis) (now : String)
    (acc : DBState × AnalyzeStats × Nat) (article : Row) :
    DBState × AnalyzeStats × Nat :=
  let r := analyze_single_article backend (oracle article.id)
  match r.1 with
  | some analysis =>
    (update_analysis acc.1 article.id analysis.impact_level
       analysis.impact_score analysis.impact_summary
       (json_dumps analysis.affected_sectors) analysis.market_direction now,
     { acc.2.1 with analyzed := acc.2.1.analyzed + 1 }, acc.2.2 + r.2)
  | none =>
    (acc.1, { acc.2.1 with failed := acc.2.1.failed + 1 }, acc.2.2 + r.2)

/-- `analyze_pending_articles` from app/analyzer.py: pull a batch of
unclassified rows (most recently fetched first), classify each sequentially,
and return the updated store, the statistics and the provider-contact count. -/
def analyze_pending_articles (backend : String)
    (oracle : Nat → Option MarketImpactAnalysis) (now : String)
    (batch_size : Nat) (st : DBState) : DBState × AnalyzeStats × Nat :=
  let articles := get_unanalyzed_articles st batch_size
  articles.foldl (analyze_batch_step backend oracle now)
    (st, { analyzed := 0, failed := 0, total := articles.length }, 0)

/-- Response of the POST /api/analyze route: either the structured
unavailability object or the batch statistics. -/
inductive AnalyzeResponse where
  | unavailable (error fix : String)
  | stats (analyzed failed total : Nat)
deriving DecidableEq

/-- Error text of the unavailability response in app/api.py. -/
def analyze_unavailable_error : String :=
  "Ollama is not available. Make sure Ollama is running and the model is pulled."

/-- Fix text of the unavailability response in app/api.py. -/
def analyze_unavailable_fix : String :=
  "Run: ollama serve  (then in another terminal) ollama pull llama3.1:8b"

/-- `trigger_analysis` (POST /api/analyze) from app/api.py: the batch
classification call. When `check_ollama_available` reports no backend it
returns the structured unavailability object at once; otherwise it runs the
batch. The result carries the response, the resulting store and the number of
provider contacts. -/
def trigger_analysis (groq_api_key : String)
    (ollama_models : Option (List String)) (ollama_model : String)
    (batch_size : Nat) (st : DBState)
    (oracle : Nat → Option MarketImpactAnalysis) (now : String) :
    AnalyzeResponse × DBState × Nat :=
  if check_ollama_available groq_api_key ollama_models ollama_model = false then
    (AnalyzeResponse.unavailable analyze_unavailable_error analyze_unavailable_fix,
     st, 0)
  else
    let backend := _get_backend groq_api_key ollama_models ollama_model
    let r := analyze_pending_articles backend oracle now batch_size st
    (AnalyzeResponse.stats r.2.1.analyzed r.2.1.failed r.2.1.total, r.1, r.2.2)

/-! ## Archival fallback chain (app/archiver.py) -/

/-- The two archival services. -/
inductive ArchService where
  | archiveIs
  | wayback
deriving DecidableEq

/-- `save_to_archive_is` from app/archiver.py. `capture` is the outcome of the
`archiveis.capture` library call (`none` when it raises); the result is kept
only when it is a non-empty string containing "archive". -/
def save_to_archive_is (capture : Option String) : Option String :=
  match capture with
  | none => none
  | some u => if u ≠ "" && pyInStr "archive" u then some u else none

/-- `save_article` from app/archiver.py: try archive.is first and fall back to
the Wayback Machine. `wayback_result` is the outcome of `save_to_wayback`
(its internal check/save/re-check phases collapsed to their returned value).
The second component records, in order, which services were contacted. -/
def save_article (capture : Option String) (wayback_result : Option String) :
    Option String × List ArchService :=
  match save_to_archive_is capture with
  | some u => (some u, [ArchService.archiveIs])
  | none => (wayback_result, [ArchService.archiveIs, ArchService.wayback])

/-! ## Archival store support referenced by app/archiver.py

app/archiver.py line 6 imports `get_articles_without_archive` and
`update_archive_url` from app.database, and `archive_pending_articles` calls
them; app/discord_bot.py reads an `archive_url` key from article rows. The
lists below record, verbatim from the source, the columns the `articles`
table is created with by `init_db` and the functions app/database.py
actually defines. -/

/-- Columns of the `articles` table in the `CREATE TABLE` statement of
`init_db` (app/database.py lines 16-32). -/
def articles_table_columns : List String :=
  ["id", "title", "url", "source", "summary", "published_at", "fetched_at",
   "impact_level", "impact_score", "impact_summary", "affected_sectors",
   "market_direction", "analyzed_at"]

/-- Top-level functions defined by app/database.py. -/
def database_module_functions : List String :=
  ["get_db", "init_db", "insert_article", "update_analysis", "get_articles",
   "get_unanalyzed_articles", "get_article_count",
   "get_new_article_count_since", "get_sources", "get_market_summary"]

/-- Names app/archiver.py imports from app.database (line 6). -/
def archiver_imports_from_database : List String :=
  ["get_articles_without_archive", "update_archive_url"]

/-! ## Notification dispatcher (app/discord_bot.py) -/

/-- `SECTOR_MAP` from app/discord_bot.py: the four broad categories and their
keyword lists. -/
def SECTOR_MAP : List (String × List String) :=
  [("TMT", ["technology", "communications", "media", "telecom"]),
   ("Defensive", ["healthcare", "utilities", "consumer staples", "consumer"]),
   ("Macroeconomics", ["broad market", "bonds", "commodities", "crypto"]),
   ("Cyclical", ["finance", "energy", "industrial", "real estate", "materials"])]

/-- Category-matching loop of `classify_to_sector` from app/discord_bot.py:
collect, in `SECTOR_MAP` order, every category one of whose keywords occurs
in the lower-casing of some parsed tag (the inner loop breaks after the
first matching tag, so each category appears at most once). -/
def classifyCore (sectors : List String) : List String :=
  (SECTOR_MAP.filter (fun p =>
    sectors.any (fun s => p.2.any (fun k => pyInStr k (pyLower s))))).map
    Prod.fst

/-- `classify_to_sector` applied to the tolerantly parsed sector list of the
raw column value. On a raw value parsing to a bare scalar the code raises
instead; `classify_to_sectorE` below captures that. -/
def classify_to_sector (affected_sectors_raw : Option String) : List String :=
  classifyCore (sectorsOfRaw affected_sectors_raw)

/-- Debounce gate of `MarketBot.send_update` from app/discord_bot.py: a
non-forced call with a recorded (truthy) `last_sent_at` first asks the store
for the count of rows classified since then, and returns before building any
payload or contacting any channel when that count is zero; otherwise the call
proceeds to build the sector buckets and deliver to the configured channels.
The boolean is true exactly when the call proceeds past the gate. -/
def send_update_delivers (force : Bool) (last_sent_at : Option String)
    (st : DBState) : Bool :=
  match force, last_sent_at with
  | false, some t =>
    if t ≠ "" ∧ get_new_article_count_since st t = 0 then false else true
  | _, _ => true

/-! ## Properties of the Python max fold -/

theorem pyMax2_mem {α β : Type} [LinearOrder β] (f : α → β) (b : α) (l : List α) :
    pyMax2 f b l = b ∨ pyMax2 f b l ∈ l := by
  induction l generalizing b with
  | nil => left; rfl
  | cons y ys ih =>
    rcases ih (if f y > f b then y else b) with h | h
    · rw [pyMax2, h]
      split
      · right; exact List.mem_cons_self _ _
      · left; rfl
    · right
      rw [pyMax2]
      exact List.mem_cons_of_mem _ h

theorem pyMax2_le {α β : Type} [LinearOrder β] (f : α → β) (b : α) (l : List α) :
    f b ≤ f (pyMax2 f b l) ∧ ∀ y ∈ l, f y ≤ f (pyMax2 f b l) := by
  induction l generalizing b with
  | nil => exact ⟨le_refl _, by simp⟩
  | cons y ys ih =>
    obtain ⟨h1, h2⟩ := ih (if f y > f b then y else b)
    rw [pyMax2]
    constructor
    · refine le_trans ?_ h1
      split
      · next hc => exact le_of_lt hc
      · exact le_refl _
    · intro z hz
      rcases List.mem_cons.mp hz with rfl | hz
      · refine le_trans ?_ h1
        split
        · exact le_refl _
        · next hc => exact le_of_not_lt hc
      · exact h2 z hz

theorem insOrd_mem {α : Type} (before : α → α → Bool) (x z : α) (l : List α) :
    z ∈ insOrd before x l ↔ z = x ∨ z ∈ l := by
  induction l with
  | nil => simp [insOrd]
  | cons y ys ih =>
    rw [insOrd]
    split
    · simp
    · simp [ih]
      tauto

theorem sortOrd_mem {α : Type} (before : α → α → Bool) (z : α) (l : List α) :
    z ∈ sortOrd before l ↔ z ∈ l := by
  induction l with
  | nil => simp [sortOrd]
  | cons y ys ih => rw [sortOrd, insOrd_mem, ih]; simp

/-! ## Claim C4: output sanitization -/

/-- C4: for every successfully parsed classification output (any backend being
available), the result persisted by `analyze_single_article` is the sanitized
analysis: `impact_score` is clamped to [0,100] via `max(0, min(100, s))`
(150 becomes 100, -5 becomes 0) and an `impact_level` outside
high/medium/low/none is coerced to "low"; both rules apply unconditionally to
every parsed output. -/
theorem C4_sanitize_rules (backend : String) (a : MarketImpactAnalysis)
    (hb : backend ≠ "none") :
    (analyze_single_article backend (some a)).1 = some (sanitize_analysis a) ∧
    (sanitize_analysis a).impact_score = max 0 (min 100 a.impact_score) ∧
    0 ≤ (sanitize_analysis a).impact_score ∧
    (sanitize_analysis a).impact_score ≤ 100 ∧
    (a.impact_score = 150 → (sanitize_analysis a).impact_score = 100) ∧
    (a.impact_score = -5 → (sanitize_analysis a).impact_score = 0) ∧
    ((sanitize_analysis a).impact_level = "high" ∨
     (sanitize_analysis a).impact_level = "medium" ∨
     (sanitize_analysis a).impact_level = "low" ∨
     (sanitize_analysis a).impact_level = "none") ∧
    (¬(a.impact_level = "high" ∨ a.impact_level = "medium" ∨
       a.impact_level = "low" ∨ a.impact_level = "none") →
      (sanitize_analysis a).impact_level = "low") := by
  have hscore : (sanitize_analysis a).impact_score = max 0 (min 100 a.impact_score) := by
    simp only [sanitize_analysis]
    split <;> rfl
  refine ⟨by simp [analyze_single_article, hb], hscore, ?_, ?_, ?_, ?_, ?_, ?_⟩
  · rw [hscore]; exact le_max_left _ _
  · rw [hscore]; exact max_le (by norm_num) (min_le_left _ _)
  · intro h; rw [hscore, h]; decide
  · intro h; rw [hscore, h]; decide
  · simp only [sanitize_analysis]
    split
    · next h => exact h
    · right; right; left; rfl
  · intro h
    simp only [sanitize_analysis]
    split
    · next h2 => exact absurd h2 h
    · rfl

/-- Closed instance of C4_sanitize_rules at a concrete out-of-range output. -/
theorem C4_sanitize_rules_check :
    (sanitize_analysis ⟨"extreme", 150, "s", [], "bullish"⟩).impact_level = "low" :=
  (C4_sanitize_rules "groq" ⟨"extreme", 150, "s", [], "bullish"⟩
    (by decide)).2.2.2.2.2.2.2 (by decide)

/-! ## Claim C7: archival fallback order -/

/-- C7: `save_article` always contacts archive.is first; the Wayback Machine
is contacted exactly when the archive.is attempt fails; the operation fails
exactly when both attempts fail; and when archive.is succeeds the Wayback
Machine is never contacted and its result is returned. -/
theorem C7_archival_fallback_order (capture wayback_result : Option String) :
    (save_article capture wayback_result).2.head? = some ArchService.archiveIs ∧
    (ArchService.wayback ∈ (save_article capture wayback_result).2 ↔
      save_to_archive_is capture = none) ∧
    ((save_article capture wayback_result).1 = none ↔
      save_to_archive_is capture = none ∧ wayback_result = none) ∧
    ∀ u, save_to_archive_is capture = some u →
      (save_article capture wayback_result).1 = some u ∧
      (save_article capture wayback_result).2 = [ArchService.archiveIs] := by
  cases h : save_to_archive_is capture with
  | none => simp [save_article, h]
  | some u =>
    refine ⟨by simp [save_article, h], by simp [save_article, h], by simp [save_article, h], ?_⟩
    intro u' hu'
    injection hu' with hu'
    subst hu'
    exact ⟨by simp [save_article, h], by simp [save_article, h]⟩

/-- Closed instance of C7_archival_fallback_order with a successful archive.is
capture: the result is the archive.is URL and only archive.is was contacted. -/
theorem C7_archival_fallback_order_check :
    (save_article (some "https://archive.ph/abc") none).1 = some "https://archive.ph/abc" ∧
    (save_article (some "https://archive.ph/abc") none).2 = [ArchService.archiveIs] :=
  (C7_archival_fallback_order (some "https://archive.ph/abc") none).2.2.2
    "https://archive.ph/abc" (by decide)

/-! ## Claim C3: the archive_url store support -/

/-- C3: the `articles` table created by `init_db` has no `archive_url` column,
and the two store operations the archival chain needs and imports
(`get_articles_without_archive`, `update_archive_url`) are not defined by
app/database.py, so the archival chain of app/archiver.py cannot run at all
(its import raises) and no persisted record carries the claimed field. -/
theorem C3_missing_archive_support :
    articles_table_columns.contains "archive_url" = false ∧
    archiver_imports_from_database =
      ["get_articles_without_archive", "update_archive_url"] ∧
    database_module_functions.contains "get_articles_without_archive" = false ∧
    database_module_functions.contains "update_archive_url" = false := by decide

/-! ## Claim C8: sort-field allow-list fallback -/

/-- Concrete store with two rows whose publication order is visible. -/
def demoRow1 : Row :=
  { id := 1, title := "first", url := "https://example.com/1", source := "SrcA",
    summary := none, published_at := some "2024-01-01T00:00:00",
    fetched_at := "2024-03-01T00:00:00", impact_level := "unanalyzed",
    impact_score := 0, impact_summary := none, affected_sectors := none,
    market_direction := none, analyzed_at := none }

/-- Second demo row, published later than `demoRow1`. -/
def demoRow2 : Row :=
  { id := 2, title := "second", url := "https://example.com/2", source := "SrcB",
    summary := none, published_at := some "2024-02-02T00:00:00",
    fetched_at := "2024-03-02T00:00:00", impact_level := "unanalyzed",
    impact_score := 0, impact_summary := none, affected_sectors := none,
    market_direction := none, analyzed_at := none }

/-- Demo store holding the two rows. -/
def demoStore : DBState := { articles := [demoRow1, demoRow2], next_id := 3 }

/-- C8 counterexample: for the non-allow-listed sort field "url" together with
sort order "ASC", the query is executed with published time ASCENDING, not
with the claimed default of published time descending: the two orderings
differ on `demoStore`. -/
theorem C8_counterexample :
    allowed_sort.contains "url" = false ∧
    get_articles demoStore none none 100 0 "url" "ASC" = [demoRow1, demoRow2] ∧
    get_articles demoStore none none 100 0 "published_at" "DESC" = [demoRow2, demoRow1] ∧
    decide (get_articles demoStore none none 100 0 "url" "ASC" =
      get_articles demoStore none none 100 0 "published_at" "DESC") = false := by
  decide

/-- C8 (amended): a request whose sort field is outside the allow-list never
fails; it is executed exactly as a query sorted by the default field
`published_at`, with the sort order still taken from the independently
validated sort-order parameter; only when that order parameter is invalid
(or DESC) does the query coincide with published time descending. -/
theorem C8_sort_field_fallback (st : DBState) (impact_level source : Option String)
    (limit offset : Nat) (sort_by sort_order : String)
    (h : sort_by ∉ allowed_sort) :
    effective_sort_by sort_by = "published_at" ∧
    get_articles st impact_level source limit offset sort_by sort_order =
      get_articles st impact_level source limit offset "published_at" sort_order ∧
    (pyUpper sort_order ≠ "ASC" ∧ pyUpper sort_order ≠ "DESC" →
      get_articles st impact_level source limit offset sort_by sort_order =
        get_articles st impact_level source limit offset "published_at" "DESC") := by
  have hsb : effective_sort_by sort_by = "published_at" := if_neg h
  have hsb2 : effective_sort_by "published_at" = "published_at" := if_pos (by decide)
  refine ⟨hsb, ?_, ?_⟩
  · unfold get_articles
    rw [hsb, hsb2]
  · rintro ⟨h1, h2⟩
    have hso : effective_sort_order sort_order = "DESC" := if_neg (by tauto)
    have hso2 : effective_sort_order "DESC" = "DESC" := if_pos (by right; decide)
    unfold get_articles
    rw [hsb, hsb2, hso, hso2]

/-- Closed instance of C8_sort_field_fallback at an injection-style field. -/
theorem C8_sort_field_fallback_check :
    effective_sort_by "title; DROP TABLE articles" = "published_at" ∧
    get_articles demoStore none none 100 0 "title; DROP TABLE articles" "DESC" =
      get_articles demoStore none none 100 0 "published_at" "DESC" :=
  ⟨(C8_sort_field_fallback demoStore none none 100 0 "title; DROP TABLE articles"
      "DESC" (by decide)).1,
   (C8_sort_field_fallback demoStore none none 100 0 "title; DROP TABLE articles"
      "DESC" (by decide)).2.1⟩

/-! ## Claim C5: dedup idempotence of insert -/

theorem run_inserts_dup (url : String) (calls : List InsertArgs) :
    ∀ st : DBState, hasUrl st url = true → (∀ c ∈ calls, c.url = url) →
      run_inserts st calls = (st, calls.map fun _ => none) := by
  induction calls with
  | nil => intro st _ _; rfl
  | cons c cs ih =>
    intro st h hc
    have hins : insert_article st c = (st, none) := by
      simp [insert_article, hc c (List.mem_cons_self _ _), h]
    simp [run_inserts, hins,
      ih st h (fun d hd => hc d (List.mem_cons_of_mem _ hd))]

/-- C5: starting from a store without the URL, any non-empty sequence of
insert calls for that URL (arbitrary other fields) stores exactly one item:
the first call returns the fresh rowid and appends exactly one row, every
later call returns the duplicate signal `none` and leaves the store exactly
as it was after the first call, and the final store holds exactly one row
with that URL. -/
theorem C5_insert_dedup (st : DBState) (url : String) (c0 : InsertArgs)
    (cs : List InsertArgs) (h0 : c0.url = url) (hcs : ∀ c ∈ cs, c.url = url)
    (hfresh : hasUrl st url = false) :
    run_inserts st (c0 :: cs) =
      ({ articles := st.articles ++ [rowOfInsert c0 st.next_id],
         next_id := st.next_id + 1 }, some st.next_id :: cs.map (fun _ => none)) ∧
    (st.articles ++ [rowOfInsert c0 st.next_id]).countP (fun r => r.url = url) = 1 := by
  have hins : insert_article st c0 =
      ({ articles := st.articles ++ [rowOfInsert c0 st.next_id],
         next_id := st.next_id + 1 }, some st.next_id) := by
    simp [insert_article, h0, hfresh]
  have hdup : hasUrl ({ articles := st.articles ++ [rowOfInsert c0 st.next_id],
                        next_id := st.next_id + 1 } : DBState) url = true := by
    simp [hasUrl, rowOfInsert, h0]
  constructor
  · simp [run_inserts, hins, run_inserts_dup url cs _ hdup hcs]
  · rw [List.countP_append]
    have h1 : st.articles.countP (fun r => decide (r.url = url)) = 0 := by
      rw [List.countP_eq_zero]
      intro r hr
      simp only [hasUrl, List.any_eq_true, not_exists] at hfresh
      have := (List.any_eq_false).mp hfresh r hr
      simpa using this
    have h2 : ([rowOfInsert c0 st.next_id].countP (fun r => decide (r.url = url))) = 1 := by
      simp [rowOfInsert, h0]
    omega

/-- Closed instance of C5_insert_dedup: two inserts of the same URL on the
empty store yield one stored row, one fresh id and one duplicate signal. -/
theorem C5_insert_dedup_check :
    run_inserts { articles := [], next_id := 1 }
      [⟨"t1", "https://example.com/a", "S1", none, none, "2024-01-01"⟩,
       ⟨"t2", "https://example.com/a", "S2", some "other", some "p", "2024-01-02"⟩] =
      ({ articles := [rowOfInsert ⟨"t1", "https://example.com/a", "S1", none, none,
            "2024-01-01"⟩ 1], next_id := 2 }, [some 1, none]) :=
  ((C5_insert_dedup { articles := [], next_id := 1 } "https://example.com/a"
      ⟨"t1", "https://example.com/a", "S1", none, none, "2024-01-01"⟩
      [⟨"t2", "https://example.com/a", "S2", some "other", some "p", "2024-01-02"⟩]
      (by decide) (by decide) (by decide)).1)

/-! ## Claim C6: dispatch debounce -/

/-- C6: with a recorded last-dispatch timestamp T, a non-forced dispatch call
is gated on the store count of rows classified after T: when no row has
`analyzed_at` after T the call stops before building any payload or
contacting any channel; when some classified row has `analyzed_at` after T,
or when the call is forced, it proceeds to delivery. -/
theorem C6_debounce (st : DBState) (T : String) (hT : T ≠ "") :
    ((∀ r ∈ st.articles, ∀ ts, r.analyzed_at = some ts → strLt T ts = false) →
      send_update_delivers false (some T) st = false) ∧
    (∀ r ∈ st.articles, ∀ ts, r.analyzed_at = some ts → strLt T ts = true →
      r.impact_level ≠ "unanalyzed" → send_update_delivers false (some T) st = true) ∧
    (∀ last, send_update_delivers true last st = true) := by
  refine ⟨?_, ?_, ?_⟩
  · intro h
    have hcount : get_new_article_count_since st T = 0 := by
      rw [get_new_article_count_since, List.countP_eq_zero]
      intro r hr
      cases hts : r.analyzed_at with
      | none => simp [hts]
      | some ts => simp [hts, h r hr ts hts]
    simp [send_update_delivers, hT, hcount]
  · intro r hr ts hts hlt hlvl
    have hcount : get_new_article_count_since st T ≠ 0 := by
      intro h0
      rw [get_new_article_count_since] at h0
      have hz := List.countP_eq_zero.mp h0 r hr
      simp [hts, hlt, hlvl] at hz
    simp [send_update_delivers, hcount]
  · intro last
    cases last <;> rfl

/-- Row classified before the demo debounce timestamp. -/
def debounceRow : Row :=
  { id := 1, title := "t", url := "u", source := "s", summary := none,
    published_at := none, fetched_at := "2024-05-31T00:00:00",
    impact_level := "high", impact_score := 50, impact_summary := none,
    affected_sectors := none, market_direction := some "bullish",
    analyzed_at := some "2024-05-31T12:00:00" }

/-- Store holding only `debounceRow`. -/
def debounceStore : DBState := { articles := [debounceRow], next_id := 2 }

/-- Closed instance of C6_debounce: on a store whose only row was classified
before T, the non-forced dispatch is skipped. -/
theorem C6_debounce_check :
    send_update_delivers false (some "2024-06-01T00:00:00") debounceStore = false :=
  (C6_debounce debounceStore "2024-06-01T00:00:00" (by decide)).1 (by decide)

/-! ## Claim C2: unavailable backend and the batch call -/

theorem analyze_batch_none (oracle : Nat → Option MarketImpactAnalysis)
    (now : String) (l : List Row) :
    ∀ (st : DBState) (s : AnalyzeStats) (c : Nat),
      l.foldl (analyze_batch_step "none" oracle now) (st, s, c) =
        (st, { s with failed := s.failed + l.length }, c) := by
  induction l with
  | nil => intro st s c; simp
  | cons a as ih =>
    intro st s c
    have hstep : analyze_batch_step "none" oracle now (st, s, c) a =
        (st, { s with failed := s.failed + 1 }, c) := by
      simp [analyze_batch_step, analyze_single_article]
    rw [List.foldl_cons, hstep, ih]
    simp [AnalyzeStats.mk.injEq]
    omega

/-- C2: when no remote credential is configured (empty Groq key) and the local
probe selects no backend, the batch classification call (POST /api/analyze)
returns, for every batch size, the structured unavailability object — a value
distinct from every statistics result — leaves the store untouched and
contacts zero providers; and even the inner batch routine run with backend
"none" contacts zero providers and never writes the store. -/
theorem C2_unavailable_batch (ollama_models : Option (List String))
    (ollama_model : String) (batch_size : Nat) (st : DBState)
    (oracle : Nat → Option MarketImpactAnalysis) (now : String)
    (hprobe : _get_backend "" ollama_models ollama_model = "none") :
    trigger_analysis "" ollama_models ollama_model batch_size st oracle now =
      (AnalyzeResponse.unavailable analyze_unavailable_error analyze_unavailable_fix,
       st, 0) ∧
    (∀ a f t, AnalyzeResponse.unavailable analyze_unavailable_error
        analyze_unavailable_fix ≠ AnalyzeResponse.stats a f t) ∧
    (analyze_pending_articles "none" oracle now batch_size st).1 = st ∧
    (analyze_pending_articles "none" oracle now batch_size st).2.2 = 0 := by
  refine ⟨?_, ?_, ?_, ?_⟩
  · simp [trigger_analysis, check_ollama_available, hprobe]
  · intro a f t h
    exact AnalyzeResponse.noConfusion h
  · simp [analyze_pending_articles, analyze_batch_none]
  · simp [analyze_pending_articles, analyze_batch_none]

/-- Closed instance of C2_unavailable_batch: empty credential, failed probe,
batch size 10 on the demo store. -/
theorem C2_unavailable_batch_check :
    trigger_analysis "" none "llama3.1:8b" 10 demoStore (fun _ => none) "now" =
      (AnalyzeResponse.unavailable analyze_unavailable_error analyze_unavailable_fix,
       demoStore, 0) :=
  (C2_unavailable_batch none "llama3.1:8b" 10 demoStore (fun _ => none) "now"
    (by decide)).1

/-! ## Claims C1 and C10: aggregation direction rules -/

theorem pyMaxD_le {α β : Type} [LinearOrder β] (f : α → β) (dflt x : α)
    (xs : List α) : ∀ y ∈ x :: xs, f y ≤ f (pyMaxD f dflt (x :: xs)) := by
  intro y hy
  rcases List.mem_cons.mp hy with rfl | hy
  · exact (pyMax2_le f y xs).1
  · exact (pyMax2_le f x xs).2 y hy

theorem market_summary_overall (rows : List Row) (hne : select_analyzed rows ≠ []) :
    (get_market_summary rows).overall_direction =
      overall_direction (select_analyzed rows) := by
  simp only [get_market_summary, summarize, if_neg hne]

theorem market_summary_sectors (rows : List Row) (hne : select_analyzed rows ≠ []) :
    (get_market_summary rows).sector_sentiment =
      sector_sentiment (select_analyzed rows) := by
  simp only [get_market_summary, summarize, if_neg hne]

/-- Position of a direction in the fixed `dirList` order. -/
def dirIdx : String → Nat
  | "bullish" => 0
  | "bearish" => 1
  | "neutral" => 2
  | _ => 3

/-- Classified sample row carrying a plain-text sector value, used for the
worked example of the specification. -/
def exRow (i : Nat) (d : String) (score : Int) : Row :=
  { id := i, title := "t", url := "u", source := "s", summary := none,
    published_at := none, fetched_at := "2024-01-01", impact_level := "medium",
    impact_score := score, impact_summary := some "sum",
    affected_sectors := some "Finance", market_direction := some d,
    analyzed_at := some "2024-01-02" }

/-- The spec example: one sector with items bullish/5, bullish/5, bearish/95. -/
def exampleRows : List Row :=
  [exRow 1 "bullish" 5, exRow 2 "bullish" 5, exRow 3 "bearish" 95]

/-- C1: on every non-empty selection, the snapshot overall direction carries
the maximal summed `impact_score` over the four buckets (score-weighted), and
every reported sector direction carries the maximal per-direction item count
of that sector (vote-counted, not score-weighted); the two rules differ: on
the spec example (bullish/5, bullish/5, bearish/95 in one sector) the sector
reports bullish while the weighted rule on the same items yields bearish. -/
theorem C1_direction_rules (rows : List Row) (hne : select_analyzed rows ≠ []) :
    (∀ d ∈ dirList, direction_scores (select_analyzed rows) d ≤
        direction_scores (select_analyzed rows)
          ((get_market_summary rows).overall_direction)) ∧
    (∀ s info, (s, info) ∈ (get_market_summary rows).sector_sentiment →
      ∃ sd, (s, sd) ∈ sector_data (select_analyzed rows) ∧
        info.direction = sdDominant sd ∧ info.count = sd.count ∧
        ∀ d ∈ dirList, sdDirCount sd d ≤ sdDirCount sd info.direction) ∧
    (get_market_summary exampleRows).overall_direction = "bearish" ∧
    (get_market_summary exampleRows).sector_sentiment =
      [("Finance", { direction := "bullish", count := 3, total_score := 105 })] := by
  refine ⟨?_, ?_, by decide, by decide⟩
  · intro d hd
    rw [market_summary_overall rows hne]
    exact pyMaxD_le (direction_scores (select_analyzed rows)) "bullish"
      "bullish" ["bearish", "neutral", "mixed"] d hd
  · intro s info hmem
    rw [market_summary_sectors rows hne] at hmem
    rw [sector_sentiment] at hmem
    obtain ⟨p, hp, hpe⟩ := List.mem_map.mp hmem
    obtain ⟨hp1, hp2⟩ := Prod.mk.injEq .. ▸ hpe
    refine ⟨p.2, ?_, ?_, ?_, ?_⟩
    · rw [← hp1]
      exact (sortOrd_mem _ _ _).mp hp
    · rw [← hp2]
    · rw [← hp2]
    · intro d hd
      rw [← hp2]
      exact pyMaxD_le (sdDirCount p.2) "bullish" "bullish"
        ["bearish", "neutral", "mixed"] d hd

/-- Closed instance of C1_direction_rules on the spec example rows. -/
theorem C1_direction_rules_check :
    direction_scores (select_analyzed exampleRows) "bullish" ≤
      direction_scores (select_analyzed exampleRows)
        ((get_market_summary exampleRows).overall_direction) :=
  (C1_direction_rules exampleRows (by decide)).1 "bullish" (by decide)

/-- C10: on a non-empty selection the overall direction is the unique
direction that carries the maximal summed score and is earliest (in the fixed
order bullish, bearish, neutral, mixed) among the buckets tied at that
maximum — the snapshot direction is this deterministic function of the
classified set; in particular a selection whose scores are all zero yields
"bullish". -/
theorem C10_weighted_tie_break (rows : List Row) (hne : select_analyzed rows ≠ [])
    (d : String) (hd : d ∈ dirList)
    (hmax : ∀ e ∈ dirList, direction_scores (select_analyzed rows) e ≤
        direction_scores (select_analyzed rows) d)
    (hfirst : ∀ e ∈ dirList, direction_scores (select_analyzed rows) e =
        direction_scores (select_analyzed rows) d → dirIdx d ≤ dirIdx e) :
    (get_market_summary rows).overall_direction = d ∧
    ((∀ a ∈ select_analyzed rows, a.impact_score = 0) →
      (get_market_summary rows).overall_direction = "bullish") := by
  have hov : (get_market_summary rows).overall_direction =
      pyMax2 (direction_scores (select_analyzed rows)) "bullish"
        ["bearish", "neutral", "mixed"] := by
    rw [market_summary_overall rows hne]
    rfl
  constructor
  · have ha := hmax "bullish" (by simp [dirList])
    have hb := hmax "bearish" (by simp [dirList])
    have hc := hmax "neutral" (by simp [dirList])
    have hm := hmax "mixed" (by simp [dirList])
    rw [hov]
    simp only [dirList, List.mem_cons, List.not_mem_nil, or_false] at hd
    rcases hd with rfl | rfl | rfl | rfl
    · simp only [pyMax2]
      split_ifs <;> first | rfl | (exfalso; omega)
    · have h1 : direction_scores (select_analyzed rows) "bullish" <
          direction_scores (select_analyzed rows) "bearish" :=
        lt_of_le_of_ne ha (fun he =>
          absurd (hfirst "bullish" (by simp [dirList]) he) (by decide))
      simp only [pyMax2]
      split_ifs <;> first | rfl | (exfalso; omega)
    · have h1 : direction_scores (select_analyzed rows) "bullish" <
          direction_scores (select_analyzed rows) "neutral" :=
        lt_of_le_of_ne ha (fun he =>
          absurd (hfirst "bullish" (by simp [dirList]) he) (by decide))
      have h2 : direction_scores (select_analyzed rows) "bearish" <
          direction_scores (select_analyzed rows) "neutral" :=
        lt_of_le_of_ne hb (fun he =>
          absurd (hfirst "bearish" (by simp [dirList]) he) (by decide))
      simp only [pyMax2]
      split_ifs <;> first | rfl | (exfalso; omega)
    · have h1 : direction_scores (select_analyzed rows) "bullish" <
          direction_scores (select_analyzed rows) "mixed" :=
        lt_of_le_of_ne ha (fun he =>
          absurd (hfirst "bullish" (by simp [dirList]) he) (by decide))
      have h2 : direction_scores (select_analyzed rows) "bearish" <
          direction_scores (select_analyzed rows) "mixed" :=
        lt_of_le_of_ne hb (fun he =>
          absurd (hfirst "bearish" (by simp [dirList]) he) (by decide))
      have h3 : direction_scores (select_analyzed rows) "neutral" <
          direction_scores (select_analyzed rows) "mixed" :=
        lt_of_le_of_ne hc (fun he =>
          absurd (hfirst "neutral" (by simp [dirList]) he) (by decide))
      simp only [pyMax2]
      split_ifs <;> first | rfl | (exfalso; omega)
  · intro hz
    have hval : ∀ e, direction_scores (select_analyzed rows) e = 0 := by
      intro e
      rw [direction_scores]
      apply List.sum_eq_zero
      intro x hx
      obtain ⟨a, ha, rfl⟩ := List.mem_map.mp hx
      split
      · exact hz a ha
      · rfl
    rw [hov]
    simp [pyMax2, hval]

/-- Closed instance of C10_weighted_tie_break: an all-zero-score selection
(two neutral items with score 0) reports the overall direction "bullish". -/
theorem C10_weighted_tie_break_check :
    (get_market_summary [exRow 1 "neutral" 0, exRow 2 "neutral" 0]).overall_direction =
      "bullish" :=
  (C10_weighted_tie_break [exRow 1 "neutral" 0, exRow 2 "neutral" 0] (by decide)
    "bullish" (by decide) (by decide) (by decide)).2 (by decide)

/-! ## Claim C9: representation tolerance of the sector list

A sector tag is well formed when it is non-empty, consists of ASCII
alphanumerics and inner spaces, and has no edge space: exactly the shape of
the fixed sector vocabulary the prompt allows, and the shape for which a
comma-joined rendering of the tag list is faithful at all. -/

/-- Well-formed sector tag. -/
def goodTag (t : String) : Prop :=
  t.data ≠ [] ∧ (∀ c ∈ t.data, c.isAlphanum = true ∨ c = ' ') ∧
  t.data.head? ≠ some ' ' ∧ t.data.getLast? ≠ some ' '

instance (t : String) : Decidable (goodTag t) := by
  unfold goodTag
  infer_instance

theorem good_char_ne (c : Char) (h : c.isAlphanum = true ∨ c = ' ') :
    c ≠ '"' ∧ c ≠ '\\' ∧ c ≠ ',' ∧ c ≠ '[' := by
  rcases h with h | rfl
  · refine ⟨?_, ?_, ?_, ?_⟩ <;> (rintro rfl; exact absurd h (by decide))
  · exact ⟨by decide, by decide, by decide, by decide⟩

theorem alphanum_not_pySpace (c : Char) (h : c.isAlphanum = true) :
    pySpace c = false := by
  by_contra hps
  rw [Bool.not_eq_false, pySpace] at hps
  simp only [Bool.or_eq_true, decide_eq_true_eq] at hps
  rcases hps with ((((rfl | rfl) | rfl) | rfl) | rfl) | rfl <;>
    exact absurd h (by decide)

theorem dropWhile_pySpace_id (l : List Char)
    (hchars : ∀ c ∈ l, c.isAlphanum = true ∨ c = ' ')
    (hh : l.head? ≠ some ' ') : l.dropWhile pySpace = l := by
  cases l with
  | nil => rfl
  | cons c cs =>
    have hc : c.isAlphanum = true := by
      rcases hchars c (List.mem_cons_self _ _) with h | rfl
      · exact h
      · exact absurd rfl hh
    simp [List.dropWhile, alphanum_not_pySpace c hc]

theorem pyStrip_good (t : List Char)
    (hchars : ∀ c ∈ t, c.isAlphanum = true ∨ c = ' ')
    (hh : t.head? ≠ some ' ') (hl : t.getLast? ≠ some ' ') : pyStrip t = t := by
  rw [pyStrip, dropWhile_pySpace_id t hchars hh,
    dropWhile_pySpace_id t.reverse
      (fun c hc => hchars c (List.mem_reverse.mp hc))
      (by rwa [List.head?_reverse]),
    List.reverse_reverse]

theorem pyStrip_space_cons (l : List Char) : pyStrip (' ' :: l) = pyStrip l := by
  rw [pyStrip, pyStrip, List.dropWhile_cons]
  norm_num [pySpace]

theorem splitOnChar_ne_nil (sep : Char) (l : List Char) :
    splitOnChar sep l ≠ [] := by
  cases l with
  | nil => simp [splitOnChar]
  | cons c cs =>
    rw [splitOnChar]
    split
    · simp
    · split <;> simp

theorem splitOnChar_no_sep (sep : Char) (t : List Char) (ht : sep ∉ t) :
    splitOnChar sep t = [t] := by
  induction t with
  | nil => rfl
  | cons c cs ih =>
    have hc : ¬c = sep := fun h => ht (h ▸ List.mem_cons_self _ _)
    rw [splitOnChar]
    simp only [hc, if_false]
    rw [ih (fun h => ht (List.mem_cons_of_mem _ h))]

theorem splitOnChar_append (sep : Char) (t rest : List Char) (ht : sep ∉ t) :
    splitOnChar sep (t ++ sep :: rest) = t :: splitOnChar sep rest := by
  induction t with
  | nil => simp [splitOnChar]
  | cons c cs ih =>
    have hc : ¬c = sep := fun h => ht (h ▸ List.mem_cons_self _ _)
    rw [List.cons_append, splitOnChar]
    simp only [hc, if_false]
    rw [ih (fun h => ht (List.mem_cons_of_mem _ h))]

theorem goodTag_no_comma (t : String) (hg : goodTag t) : ',' ∉ t.data := by
  intro hmem
  exact absurd rfl (good_char_ne ',' (hg.2.1 ',' hmem)).2.2.1

/-- Splitting the comma-joined rendering on commas and stripping recovers the
well-formed tag list (the separator space is removed by the strip). -/
theorem split_comma_join (tags : List String) (hne : tags ≠ [])
    (hgood : ∀ t ∈ tags, goodTag t) :
    ((splitOnChar ',' (commaJoinChars tags)).map pyStrip).filter
      (fun l => l ≠ []) = tags.map String.data := by
  induction tags with
  | nil => exact absurd rfl hne
  | cons t ts ih =>
    have hgt := hgood t (List.mem_cons_self _ _)
    have hstrip : pyStrip t.data = t.data :=
      pyStrip_good t.data hgt.2.1 hgt.2.2.1 hgt.2.2.2
    cases ts with
    | nil =>
      rw [commaJoinChars, splitOnChar_no_sep ',' t.data (goodTag_no_comma t hgt)]
      simp [hstrip, hgt.1]
    | cons t2 ts2 =>
      have hJ : commaJoinChars (t :: t2 :: ts2) =
          t.data ++ ',' :: ' ' :: commaJoinChars (t2 :: ts2) := rfl
      rw [hJ, splitOnChar_append ',' t.data _ (goodTag_no_comma t hgt)]
      have hrec := ih (by simp) (fun u hu => hgood u (List.mem_cons_of_mem _ hu))
      obtain ⟨hhd, htl, hsplit⟩ :
          ∃ hd tl, splitOnChar ',' (commaJoinChars (t2 :: ts2)) = hd :: tl := by
        cases hs : splitOnChar ',' (commaJoinChars (t2 :: ts2)) with
        | nil => exact absurd hs (splitOnChar_ne_nil _ _)
        | cons hd tl => exact ⟨hd, tl, rfl⟩
      have hsp : splitOnChar ',' (' ' :: commaJoinChars (t2 :: ts2)) =
          (' ' :: hhd) :: htl := by
        simp [splitOnChar, hsplit]
      rw [hsp]
      rw [List.map_cons, List.map_cons, hstrip, pyStrip_space_cons]
      have hkeep : ∀ (l : List (List Char)) (x : List Char), x ≠ [] →
          (x :: l).filter (fun u => u ≠ []) = x :: l.filter (fun u => u ≠ []) := by
        intro l x hx
        simp [List.filter_cons, hx]
      rw [hkeep _ _ hgt.1]
      rw [hsplit, List.map_cons] at hrec
      rw [hrec, List.map_cons]
      simp

theorem string_mk_data (s : String) : String.mk s.data = s := by
  cases s
  rfl

theorem jstep0_quote (cur : List Char) (out : List (List Char)) :
    jsonScanStep ⟨0, cur, out⟩ '"' = ⟨1, cur, out⟩ := rfl

theorem jstep1_close (cur : List Char) (out : List (List Char)) :
    jsonScanStep ⟨1, cur, out⟩ '"' = ⟨2, [], out ++ [cur]⟩ := rfl

theorem jstep2_comma (cur : List Char) (out : List (List Char)) :
    jsonScanStep ⟨2, cur, out⟩ ',' = ⟨3, cur, out⟩ := rfl

theorem jstep3_space (cur : List Char) (out : List (List Char)) :
    jsonScanStep ⟨3, cur, out⟩ ' ' = ⟨0, cur, out⟩ := rfl

theorem jstep2_close (cur : List Char) (out : List (List Char)) :
    jsonScanStep ⟨2, cur, out⟩ ']' = ⟨4, cur, out⟩ := rfl

theorem jsonScan_string (t : List Char) (ht : ∀ c ∈ t, c ≠ '"' ∧ c ≠ '\\') :
    ∀ cur out, t.foldl jsonScanStep ⟨1, cur, out⟩ = ⟨1, cur ++ t, out⟩ := by
  induction t with
  | nil => intro cur out; simp
  | cons c cs ih =>
    intro cur out
    have hc := ht c (List.mem_cons_self _ _)
    have hstep : jsonScanStep ⟨1, cur, out⟩ c = ⟨1, cur ++ [c], out⟩ := by
      simp [jsonScanStep, hc.1, hc.2]
    rw [List.foldl_cons, hstep, ih (fun d hd => ht d (List.mem_cons_of_mem _ hd))]
    simp

theorem jsonScan_elems (tags : List String)
    (hgood : ∀ t ∈ tags, ∀ c ∈ t.data, c ≠ '"' ∧ c ≠ '\\') :
    ∀ out, tags ≠ [] →
      (jsonBodyChars tags ++ [']']).foldl jsonScanStep ⟨0, [], out⟩ =
        ⟨4, [], out ++ tags.map String.data⟩ := by
  induction tags with
  | nil => intro out h; exact absurd rfl h
  | cons t ts ih =>
    intro out _
    have hgt := hgood t (List.mem_cons_self _ _)
    cases ts with
    | nil =>
      show ((('"' : Char) :: (t.data ++ ['"'])) ++ [']']).foldl jsonScanStep
          ⟨0, [], out⟩ = _
      rw [List.cons_append, List.foldl_cons, jstep0_quote, List.append_assoc,
        List.foldl_append, jsonScan_string t.data hgt [] out]
      show List.foldl jsonScanStep ⟨1, t.data, out⟩ ['"', ']'] = _
      rw [List.foldl_cons, jstep1_close, List.foldl_cons, jstep2_close,
        List.foldl_nil]
      simp
    | cons t2 ts2 =>
      show ((('"' : Char) :: (t.data ++ '"' :: ',' :: ' ' ::
          jsonBodyChars (t2 :: ts2))) ++ [']']).foldl jsonScanStep ⟨0, [], out⟩ = _
      rw [List.cons_append, List.foldl_cons, jstep0_quote, List.append_assoc,
        List.foldl_append, jsonScan_string t.data hgt [] out]
      show List.foldl jsonScanStep ⟨1, t.data, out⟩
          ('"' :: ',' :: ' ' :: (jsonBodyChars (t2 :: ts2) ++ [']'])) = _
      rw [List.foldl_cons, jstep1_close, List.foldl_cons, jstep2_comma,
        List.foldl_cons, jstep3_space,
        ih (fun u hu => hgood u (List.mem_cons_of_mem _ hu)) (out ++ [t.data])
          (by simp)]
      simp

theorem goodTag_no_escape (tags : List String) (hgood : ∀ t ∈ tags, goodTag t) :
    ∀ t ∈ tags, ∀ c ∈ t.data, c ≠ '"' ∧ c ≠ '\\' := by
  intro t ht c hc
  have := good_char_ne c ((hgood t ht).2.1 c hc)
  exact ⟨this.1, this.2.1⟩

theorem map_mk_map_data (ts : List String) :
    (ts.map String.data).map (fun l => (⟨l⟩ : String)) = ts := by
  induction ts with
  | nil => rfl
  | cons t ts ih =>
    simp only [List.map_cons, ih]

theorem jsonLoads_dumps (tags : List String) (hgood : ∀ t ∈ tags, goodTag t) :
    jsonLoadsStringArray (json_dumps tags).data = some tags := by
  cases tags with
  | nil => rfl
  | cons t ts =>
    have hdata : (json_dumps (t :: ts)).data =
        '[' :: (jsonBodyChars (t :: ts) ++ [']']) := rfl
    have hne : jsonBodyChars (t :: ts) ++ [']'] ≠ [']'] := by
      cases ts <;> simp [jsonBodyChars]
    have hscan := jsonScan_elems (t :: ts) (goodTag_no_escape _ hgood) [] (by simp)
    rw [hdata]
    simp only [jsonLoadsStringArray, if_pos rfl, if_neg hne, jsonScanElems, hscan]
    simp only [if_true, List.nil_append, Option.map_some']
    rw [map_mk_map_data]

theorem sectors_json (tags : List String) (hgood : ∀ t ∈ tags, goodTag t) :
    sectorsOfRaw (some (json_dumps tags)) = tags := by
  have hne : json_dumps tags ≠ "" := by
    intro h
    have h2 := congrArg String.data h
    simp [json_dumps] at h2
  simp only [sectorsOfRaw, if_neg hne]
  rw [parse_sectors, jsonLoads_dumps tags hgood]

/-- Continuation of the comma-joined rendering after the first tag. -/
def commaTail : List String → List Char
  | [] => []
  | t :: ts => ',' :: ' ' :: commaJoinChars (t :: ts)

/-- Shape of the comma-joined rendering of a non-empty tag list. -/
theorem commaJoin_shape (t : String) (ts : List String) :
    commaJoinChars (t :: ts) = t.data ++ commaTail ts := by
  cases ts <;> simp [commaJoinChars, commaTail]

theorem sectors_comma (tags : List String) (hgood : ∀ t ∈ tags, goodTag t) :
    sectorsOfRaw (some (comma_join tags)) = tags := by
  cases tags with
  | nil => rfl
  | cons t ts =>
    have hgt := hgood t (List.mem_cons_self _ _)
    obtain ⟨c, cs, hc⟩ : ∃ c cs, t.data = c :: cs := by
      cases ht : t.data with
      | nil => exact absurd ht hgt.1
      | cons c cs => exact ⟨c, cs, rfl⟩
    have hshape : (comma_join (t :: ts)).data = c :: (cs ++ commaTail ts) := by
      show commaJoinChars (t :: ts) = _
      rw [commaJoin_shape, hc, List.cons_append]
    have hnb : c ≠ '[' := by
      have hcm : c ∈ t.data := hc ▸ List.mem_cons_self c cs
      exact (good_char_ne c (hgt.2.1 c hcm)).2.2.2
    have hne : comma_join (t :: ts) ≠ "" := by
      intro h
      have h2 := congrArg String.data h
      rw [hshape] at h2
      simp at h2
    have hload : jsonLoadsStringArray (comma_join (t :: ts)).data = none := by
      rw [hshape]
      simp [jsonLoadsStringArray, hnb]
    simp only [sectorsOfRaw, if_neg hne]
    rw [parse_sectors, hload]
    have hsplit := split_comma_join (t :: ts) (by simp) hgood
    show ((((splitOnChar ',' (comma_join (t :: ts)).data).map pyStrip).filter
      (fun l => l ≠ [])).map (fun l => (⟨l⟩ : String))) = t :: ts
    have hdata2 : (comma_join (t :: ts)).data = commaJoinChars (t :: ts) := rfl
    rw [hdata2, hsplit, map_mk_map_data]

/-- Row with the `affected_sectors` column cleared. -/
def eraseSectors (a : Row) : Row := { a with affected_sectors := none }

/-- Two rows equal except possibly in the stored sector representation, whose
parsed sector lists agree. -/
def SectorEquiv (a b : Row) : Prop :=
  eraseSectors a = eraseSectors b ∧
  sectorsOfRaw a.affected_sectors = sectorsOfRaw b.affected_sectors

theorem sectorEquiv_fields {a b : Row} (h : SectorEquiv a b) :
    a.title = b.title ∧ a.url = b.url ∧ a.source = b.source ∧
    a.impact_score = b.impact_score ∧ a.impact_level = b.impact_level ∧
    a.impact_summary = b.impact_summary ∧
    a.market_direction = b.market_direction := by
  obtain ⟨h1, _⟩ := h
  simp only [eraseSectors, Row.mk.injEq, and_true, true_and] at h1
  obtain ⟨_, ht, hu, hsrc, _, _, _, hlvl, hsc, hsum, hdir, _⟩ := h1
  exact ⟨ht, hu, hsrc, hsc, hlvl, hsum, hdir⟩

theorem forall2_filter {α : Type} (R : α → α → Prop) (p : α → Bool)
    (hp : ∀ a b, R a b → p a = p b) :
    ∀ {l1 l2 : List α}, List.Forall₂ R l1 l2 →
      List.Forall₂ R (l1.filter p) (l2.filter p) := by
  intro l1 l2 h
  induction h with
  | nil => exact List.Forall₂.nil
  | cons hab h ih =>
    rename_i a b l1' l2'
    rw [List.filter_cons, List.filter_cons, hp _ _ hab]
    cases hpb : p b
    · simpa [hpb] using ih
    · simpa [hpb] using List.Forall₂.cons hab ih

theorem forall2_insOrd {α : Type} (R : α → α → Prop) (bef : α → α → Bool)
    (hb : ∀ a b a2 b2, R a a2 → R b b2 → bef a b = bef a2 b2)
    {x y : α} (hxy : R x y) :
    ∀ {l1 l2 : List α}, List.Forall₂ R l1 l2 →
      List.Forall₂ R (insOrd bef x l1) (insOrd bef y l2) := by
  intro l1 l2 h
  induction h with
  | nil => exact List.Forall₂.cons hxy List.Forall₂.nil
  | cons hab h ih =>
    rename_i a b l1' l2'
    rw [insOrd, insOrd, hb x a y b hxy hab]
    cases hc : bef y b
    · simpa [hc] using List.Forall₂.cons hab ih
    · simpa [hc] using List.Forall₂.cons hxy (List.Forall₂.cons hab h)

theorem forall2_sortOrd {α : Type} (R : α → α → Prop) (bef : α → α → Bool)
    (hb : ∀ a b a2 b2, R a a2 → R b b2 → bef a b = bef a2 b2) :
    ∀ {l1 l2 : List α}, List.Forall₂ R l1 l2 →
      List.Forall₂ R (sortOrd bef l1) (sortOrd bef l2) := by
  intro l1 l2 h
  induction h with
  | nil => exact List.Forall₂.nil
  | cons hab h ih =>
    rw [sortOrd, sortOrd]
    exact forall2_insOrd R bef hb hab ih

theorem forall2_map_eq {α β : Type} (R : α → α → Prop) (g : α → β)
    (hg : ∀ a b, R a b → g a = g b) :
    ∀ {l1 l2 : List α}, List.Forall₂ R l1 l2 → l1.map g = l2.map g := by
  intro l1 l2 h
  induction h with
  | nil => rfl
  | cons hab h ih => simp only [List.map_cons, hg _ _ hab, ih]

theorem forall2_countP {α : Type} (R : α → α → Prop) (p : α → Bool)
    (hp : ∀ a b, R a b → p a = p b) :
    ∀ {l1 l2 : List α}, List.Forall₂ R l1 l2 → l1.countP p = l2.countP p := by
  intro l1 l2 h
  induction h with
  | nil => rfl
  | cons hab h ih => rw [List.countP_cons, List.countP_cons, hp _ _ hab, ih]

theorem forall2_foldl {α γ : Type} (R : α → α → Prop) (f : γ → α → γ)
    (hf : ∀ m a b, R a b → f m a = f m b) :
    ∀ {l1 l2 : List α}, List.Forall₂ R l1 l2 →
      ∀ m, l1.foldl f m = l2.foldl f m := by
  intro l1 l2 h
  induction h with
  | nil => intro m; rfl
  | cons hab h ih =>
    intro m
    rw [List.foldl_cons, List.foldl_cons, hf m _ _ hab]
    exact ih _

theorem pyMax2_congr {α β : Type} [LinearOrder β] (f1 f2 : α → β)
    (hf : ∀ x, f1 x = f2 x) :
    ∀ (b : α) (l : List α), pyMax2 f1 b l = pyMax2 f2 b l := by
  intro b l
  induction l generalizing b with
  | nil => rfl
  | cons y ys ih =>
    rw [pyMax2, pyMax2, hf y, hf b]
    exact ih _

theorem select_analyzed_congr {r1 r2 : List Row}
    (h : List.Forall₂ SectorEquiv r1 r2) :
    List.Forall₂ SectorEquiv (select_analyzed r1) (select_analyzed r2) := by
  unfold select_analyzed
  apply forall2_sortOrd
  · intro a b a2 b2 ha hb
    rw [show a.impact_score = a2.impact_score from (sectorEquiv_fields ha).2.2.2.1,
      show b.impact_score = b2.impact_score from (sectorEquiv_fields hb).2.2.2.1]
  · apply forall2_filter
    · intro a b hab
      rw [show a.impact_level = b.impact_level from
        (sectorEquiv_fields hab).2.2.2.2.1]
    · exact h

theorem summarize_congr {A1 A2 : List Row}
    (h : List.Forall₂ SectorEquiv A1 A2) : summarize A1 = summarize A2 := by
  have hlen := h.length_eq
  have hdc : ∀ d, direction_count A1 d = direction_count A2 d := fun d =>
    forall2_countP SectorEquiv _ (fun a b hab => by
      rw [show a.market_direction = b.market_direction from
        (sectorEquiv_fields hab).2.2.2.2.2.2]) h
  have hds : ∀ d, direction_scores A1 d = direction_scores A2 d := fun d => by
    rw [direction_scores, direction_scores,
      forall2_map_eq SectorEquiv _ (fun a b hab => by
        rw [show a.market_direction = b.market_direction from
          (sectorEquiv_fields hab).2.2.2.2.2.2,
          show a.impact_score = b.impact_score from
          (sectorEquiv_fields hab).2.2.2.1]) h]
  have hic : ∀ lvl, impact_count A1 lvl = impact_count A2 lvl := fun lvl =>
    forall2_countP SectorEquiv _ (fun a b hab => by
      rw [show a.impact_level = b.impact_level from
        (sectorEquiv_fields hab).2.2.2.2.1]) h
  have hss : score_sum A1 = score_sum A2 := by
    rw [score_sum, score_sum, forall2_map_eq SectorEquiv _
      (fun a b hab => (sectorEquiv_fields hab).2.2.2.1) h]
  have hov : overall_direction A1 = overall_direction A2 := by
    rw [overall_direction, overall_direction]
    show pyMax2 (direction_scores A1) "bullish" _ =
      pyMax2 (direction_scores A2) "bullish" _
    exact pyMax2_congr _ _ hds _ _
  have htd : top_drivers A1 = top_drivers A2 := by
    have hmap : A1.map driverOf = A2.map driverOf :=
      forall2_map_eq SectorEquiv _ (fun a b hab => by
        obtain ⟨h1, h2, h3, h4, h5, h6, h7⟩ := sectorEquiv_fields hab
        rw [driverOf, driverOf, h1, h2, h3, h4, h5, h6, h7]) h
    rw [top_drivers, top_drivers, List.map_take, List.map_take, hmap]
  have hsd : sector_data A1 = sector_data A2 := by
    rw [sector_data, sector_data]
    exact forall2_foldl SectorEquiv _ (fun m a b hab => by
      rw [sdictRow, sdictRow, hab.2,
        show a.market_direction = b.market_direction from
          (sectorEquiv_fields hab).2.2.2.2.2.2,
        show a.impact_score = b.impact_score from
          (sectorEquiv_fields hab).2.2.2.1]) h []
  have hsent : sector_sentiment A1 = sector_sentiment A2 := by
    rw [sector_sentiment, sector_sentiment, hsd]
  by_cases he : A1 = []
  · have he2 : A2 = [] := by
      rw [he] at hlen
      exact List.length_eq_zero.mp hlen.symm
    rw [he, he2]
  · have he2 : A2 ≠ [] := by
      intro h2
      apply he
      rw [h2] at hlen
      exact List.length_eq_zero.mp hlen
    rw [summarize, summarize, if_neg he, if_neg he2]
    simp only [MarketSummary.mk.injEq]
    exact ⟨hlen, hov, hdc _, hdc _, hdc _, hdc _, hic _, hic _, hic _, hic _,
      hss, htd, hsent⟩

/-- Row built from a base row and a tag list with the analyzer JSON
serialization of the tags. -/
def jsonRow (p : Row × List String) : Row :=
  { p.1 with affected_sectors := some (json_dumps p.2) }

/-- Row built from a base row and a tag list with the comma-joined rendering
of the tags. -/
def commaRow (p : Row × List String) : Row :=
  { p.1 with affected_sectors := some (comma_join p.2) }

theorem forall2_map_pair {α β : Type} (R : β → β → Prop) (f g : α → β)
    (l : List α) (h : ∀ x ∈ l, R (f x) (g x)) :
    List.Forall₂ R (l.map f) (l.map g) := by
  induction l with
  | nil => exact List.Forall₂.nil
  | cons x xs ih =>
    exact List.Forall₂.cons (h x (List.mem_cons_self _ _))
      (ih fun y hy => h y (List.mem_cons_of_mem _ hy))

/-- Agreement of the two representations in the total (crash-free) model:
whenever both renderings parse to the tag list, the snapshots and the
dispatcher buckets coincide. Used by the amended C9 theorem, whose
error-aware layer supplies the condition under which the crash-free model is
the program. -/
theorem summary_repr_agree (items : List (Row × List String))
    (hgood : ∀ p ∈ items, ∀ t ∈ p.2, goodTag t) :
    get_market_summary (items.map jsonRow) =
      get_market_summary (items.map commaRow) ∧
    ∀ p ∈ items, classify_to_sector (some (json_dumps p.2)) =
      classify_to_sector (some (comma_join p.2)) := by
  constructor
  · have hf2 : List.Forall₂ SectorEquiv (items.map jsonRow) (items.map commaRow) := by
      apply forall2_map_pair
      intro p hp
      refine ⟨rfl, ?_⟩
      show sectorsOfRaw (some (json_dumps p.2)) = sectorsOfRaw (some (comma_join p.2))
      rw [sectors_json p.2 (hgood p hp), sectors_comma p.2 (hgood p hp)]
    exact summarize_congr (select_analyzed_congr hf2)
  · intro p hp
    rw [classify_to_sector, classify_to_sector,
      sectors_json p.2 (hgood p hp), sectors_comma p.2 (hgood p hp)]

/-! ## Error-aware sector parsing and the revised claim C9

`json.loads` also succeeds on documents that are not arrays. Among the raw
values reachable from the two serializations of a tag list over the
alphanumeric-and-space alphabet, those documents are exactly the bare scalar
literals: a JSON number (strict grammar, so `123` or `1e5` but not `0123`),
or one of the constants true, false, null, NaN, Infinity, -Infinity that
CPython accepts. On such a value the source keeps the parsed scalar and then
raises an uncaught TypeError at the `for s in sectors` iteration (and at the
same iteration inside `classify_to_sector`), so no snapshot and no bucket
list is produced. The definitions below model exactly that. Documents with
surrounding whitespace, objects, top-level strings or arrays of non-strings
cannot arise from either serialization and stay outside the modelled input
shapes. -/

/-- JSON digit. -/
def jsonDigit (c : Char) : Bool := '0' ≤ c && c ≤ '9'

/-- Greedily consume digits, returning the consumed digits and the rest. -/
def takeDigits : List Char → List Char × List Char
  | [] => ([], [])
  | c :: cs =>
    if jsonDigit c then
      let p := takeDigits cs
      (c :: p.1, p.2)
    else ([], c :: cs)

/-- Integer part of the JSON number grammar: a single 0, or a nonzero digit
followed by digits; returns the unconsumed rest. -/
def numInt : List Char → Option (List Char)
  | [] => none
  | c :: r =>
    if c = '0' then some r
    else if '1' ≤ c && c ≤ '9' then some (takeDigits r).2
    else none

/-- Optional fraction part of the JSON number grammar. -/
def numFrac : List Char → Option (List Char)
  | '.' :: r =>
    let p := takeDigits r
    if p.1 = [] then none else some p.2
  | s => some s

/-- Optional exponent part of the JSON number grammar. -/
def numExp : List Char → Option (List Char)
  | [] => some []
  | c :: r =>
    if c = 'e' || c = 'E' then
      let r1 := match r with
        | s :: r2 => if s = '+' || s = '-' then r2 else s :: r2
        | [] => []
      let p := takeDigits r1
      if p.1 = [] then none else some p.2
    else some (c :: r)

/-- Whether the whole character list is a JSON number literal. -/
def isJsonNumber (s : List Char) : Bool :=
  let s1 := match s with
    | '-' :: r => r
    | _ => s
  match numInt s1 with
  | none => false
  | some r1 =>
    match numFrac r1 with
    | none => false
    | some r2 =>
      match numExp r2 with
      | none => false
      | some r3 => r3 = []

/-- The bare constants CPython `json.loads` accepts as whole documents. -/
def jsonConstants : List String :=
  ["true", "false", "null", "NaN", "Infinity", "-Infinity"]

/-- Whether the character list is one of the bare constants. -/
def isJsonConstant (s : List Char) : Bool :=
  jsonConstants.any (fun k => k.data = s)

/-- Outcome classes of `json.loads` relevant to this pipeline: an array of
strings, or a successfully parsed non-list scalar (whose later iteration
raises TypeError). -/
inductive PyJsonDoc where
  | strings (elems : List String)
  | scalar
deriving DecidableEq

/-- Model of `json.loads` on the modelled input shapes (see the section
comment): the `json.dumps` rendering of an escape-free string list parses to
that list; a bare number or constant parses to a scalar; everything else
raises ValueError (`none`), sending the source to the comma fallback. -/
def jsonLoadsDoc (s : List Char) : Option PyJsonDoc :=
  match jsonLoadsStringArray s with
  | some l => some (PyJsonDoc.strings l)
  | none =>
    if isJsonNumber s || isJsonConstant s then some PyJsonDoc.scalar else none

/-- Outcome of a code path that may raise an uncaught Python exception. -/
inductive PyResult (α : Type) where
  | ok (val : α)
  | raised
deriving DecidableEq

/-- Error-aware sector extraction: what the inlined read-back plus the
following `for s in sectors` iteration really does with a raw value. A falsy
raw contributes nothing; a string-array document yields its tags; a bare
scalar document raises TypeError at the iteration; a ValueError falls back
to comma-split plus strip. -/
def sectorsOfRawE : Option String → PyResult (List String)
  | none => PyResult.ok []
  | some raw =>
    if raw = "" then PyResult.ok []
    else
      match jsonLoadsDoc raw.data with
      | some (PyJsonDoc.strings l) => PyResult.ok l
      | some PyJsonDoc.scalar => PyResult.raised
      | none => PyResult.ok
          ((((splitOnChar ',' raw.data).map pyStrip).filter
            (fun l => l ≠ [])).map (fun l => (⟨l⟩ : String)))

/-- Error-aware `classify_to_sector`: the dispatcher raises on a bare scalar
document and otherwise buckets the parsed tags. -/
def classify_to_sectorE (affected_sectors_raw : Option String) :
    PyResult (List String) :=
  match sectorsOfRawE affected_sectors_raw with
  | PyResult.ok sectors => PyResult.ok (classifyCore sectors)
  | PyResult.raised => PyResult.raised

/-- Error-aware `sector_data` loop with explicit accumulator: the first row
whose raw value parses to a bare scalar aborts `get_market_summary` with the
uncaught TypeError. -/
def sector_dataE : List Row → List (String × SectorData) →
    PyResult (List (String × SectorData))
  | [], m => PyResult.ok m
  | a :: rest, m =>
    match sectorsOfRawE a.affected_sectors with
    | PyResult.raised => PyResult.raised
    | PyResult.ok secs =>
      sector_dataE rest (secs.foldl
        (fun acc s => sdictBump acc s a.market_direction a.impact_score) m)

/-- Snapshot assembled from an already-selected row list and an
already-accumulated sector dictionary. -/
def summarizeWith (analyzed : List Row) (sd : List (String × SectorData)) :
    MarketSummary :=
  { total_analyzed := analyzed.length,
    overall_direction := overall_direction analyzed,
    dir_bullish := direction_count analyzed "bullish",
    dir_bearish := direction_count analyzed "bearish",
    dir_neutral := direction_count analyzed "neutral",
    dir_mixed := direction_count analyzed "mixed",
    imp_high := impact_count analyzed "high",
    imp_medium := impact_count analyzed "medium",
    imp_low := impact_count analyzed "low",
    imp_none := impact_count analyzed "none",
    avg_sum := score_sum analyzed,
    top_drivers := top_drivers analyzed,
    sector_sentiment := (sortOrd (fun a b => b.2.total_score ≤ a.2.total_score)
        sd).map
      (fun p => (p.1, { direction := sdDominant p.2, count := p.2.count,
                        total_score := p.2.total_score })) }

/-- Error-aware `get_market_summary`: the empty selection still returns the
zero snapshot; otherwise the sector loop may raise, in which case the call
produces no snapshot at all. -/
def get_market_summaryE (rows : List Row) : PyResult MarketSummary :=
  if select_analyzed rows = [] then PyResult.ok emptySummary
  else
    match sector_dataE (select_analyzed rows) [] with
    | PyResult.raised => PyResult.raised
    | PyResult.ok sd => PyResult.ok (summarizeWith (select_analyzed rows) sd)

theorem jsonLoadsDoc_none_parts (raw : List Char) (hdoc : jsonLoadsDoc raw = none) :
    jsonLoadsStringArray raw = none := by
  cases ha : jsonLoadsStringArray raw with
  | none => rfl
  | some l =>
    rw [jsonLoadsDoc, ha] at hdoc
    cases hdoc

theorem sectorsOfRawE_json (tags : List String) (hgood : ∀ t ∈ tags, goodTag t) :
    sectorsOfRawE (some (json_dumps tags)) = PyResult.ok tags := by
  have hne : json_dumps tags ≠ "" := by
    intro h
    have h2 := congrArg String.data h
    simp [json_dumps] at h2
  simp only [sectorsOfRawE, if_neg hne, jsonLoadsDoc, jsonLoads_dumps tags hgood]

theorem sectorsOfRawE_ok_of_doc_none (raw : String)
    (hdoc : jsonLoadsDoc raw.data = none) :
    sectorsOfRawE (some raw) = PyResult.ok (sectorsOfRaw (some raw)) := by
  by_cases hraw : raw = ""
  · subst hraw
    rfl
  · have harr := jsonLoadsDoc_none_parts raw.data hdoc
    simp only [sectorsOfRawE, sectorsOfRaw, if_neg hraw, hdoc, parse_sectors, harr]

theorem sector_dataE_ok (l : List Row)
    (hall : ∀ a ∈ l, sectorsOfRawE a.affected_sectors =
      PyResult.ok (sectorsOfRaw a.affected_sectors)) :
    ∀ m, sector_dataE l m = PyResult.ok (l.foldl sdictRow m) := by
  induction l with
  | nil => intro m; rfl
  | cons a rest ih =>
    intro m
    rw [sector_dataE, hall a (List.mem_cons_self _ _), List.foldl_cons]
    exact ih (fun b hb => hall b (List.mem_cons_of_mem _ hb)) _

theorem get_market_summaryE_ok (rows : List Row)
    (hall : ∀ a ∈ rows, sectorsOfRawE a.affected_sectors =
      PyResult.ok (sectorsOfRaw a.affected_sectors)) :
    get_market_summaryE rows = PyResult.ok (get_market_summary rows) := by
  have hsel : ∀ a ∈ select_analyzed rows, sectorsOfRawE a.affected_sectors =
      PyResult.ok (sectorsOfRaw a.affected_sectors) := by
    intro a ha
    rw [select_analyzed] at ha
    exact hall a (List.mem_filter.mp ((sortOrd_mem _ a _).mp ha)).1
  by_cases he : select_analyzed rows = []
  · rw [get_market_summaryE, if_pos he, get_market_summary, summarize, if_pos he]
  · rw [get_market_summaryE, if_neg he, sector_dataE_ok _ hsel [],
      get_market_summary, summarize, if_neg he]
    rfl

theorem classify_to_sectorE_ok (raw : Option String)
    (h : sectorsOfRawE raw = PyResult.ok (sectorsOfRaw raw)) :
    classify_to_sectorE raw = PyResult.ok (classify_to_sector raw) := by
  rw [classify_to_sectorE, h, classify_to_sector]

/-- C9 counterexample: the well-formed purely numeric sector tag "123"
refutes the original claim. Its JSON-list rendering parses back to the tag
and yields a snapshot and dispatcher buckets, while its comma-joined
rendering is the text 123 — itself a valid JSON document — so `json.loads`
returns the scalar 123 and the source raises an uncaught TypeError at the
sector iteration of `get_market_summary` and of `classify_to_sector`,
producing no snapshot and no buckets at all: the two representations of the
same tag list do not yield identical aggregation output. -/
theorem C9_counterexample :
    goodTag "123" ∧
    sectorsOfRawE (some (json_dumps ["123"])) = PyResult.ok ["123"] ∧
    sectorsOfRawE (some (comma_join ["123"])) = PyResult.raised ∧
    get_market_summaryE ([(exRow 1 "bullish" 40, ["123"])].map jsonRow) =
      PyResult.ok
        (get_market_summary ([(exRow 1 "bullish" 40, ["123"])].map jsonRow)) ∧
    get_market_summaryE ([(exRow 1 "bullish" 40, ["123"])].map commaRow) =
      PyResult.raised ∧
    classify_to_sectorE (some (json_dumps ["123"])) = PyResult.ok [] ∧
    classify_to_sectorE (some (comma_join ["123"])) = PyResult.raised ∧
    decide (get_market_summaryE ([(exRow 1 "bullish" 40, ["123"])].map jsonRow) =
      get_market_summaryE ([(exRow 1 "bullish" 40, ["123"])].map commaRow)) =
      false := by
  decide

/-- C9 (amended): over any set of classified items whose sector tags are
well formed and whose comma-joined rendering is not itself a parseable JSON
document (this excludes exactly the bare scalar literals of the
counterexample, such as a lone purely numeric tag), the two serializations
behave identically: both representations produce the crash-free snapshot,
the two snapshots are identical, and the dispatcher sector buckets of every
item are identical. -/
theorem C9_sector_representation_amended (items : List (Row × List String))
    (hgood : ∀ p ∈ items, ∀ t ∈ p.2, goodTag t)
    (hdoc : ∀ p ∈ items, jsonLoadsDoc (commaJoinChars p.2) = none) :
    get_market_summaryE (items.map jsonRow) =
      PyResult.ok (get_market_summary (items.map jsonRow)) ∧
    get_market_summaryE (items.map commaRow) =
      PyResult.ok (get_market_summary (items.map commaRow)) ∧
    get_market_summaryE (items.map jsonRow) =
      get_market_summaryE (items.map commaRow) ∧
    ∀ p ∈ items,
      classify_to_sectorE (some (json_dumps p.2)) =
        PyResult.ok (classify_to_sector (some (json_dumps p.2))) ∧
      classify_to_sectorE (some (comma_join p.2)) =
        PyResult.ok (classify_to_sector (some (comma_join p.2))) ∧
      classify_to_sectorE (some (json_dumps p.2)) =
        classify_to_sectorE (some (comma_join p.2)) := by
  have hallj : ∀ a ∈ items.map jsonRow, sectorsOfRawE a.affected_sectors =
      PyResult.ok (sectorsOfRaw a.affected_sectors) := by
    intro a ha
    obtain ⟨p, hp, rfl⟩ := List.mem_map.mp ha
    show sectorsOfRawE (some (json_dumps p.2)) =
      PyResult.ok (sectorsOfRaw (some (json_dumps p.2)))
    rw [sectorsOfRawE_json p.2 (hgood p hp), sectors_json p.2 (hgood p hp)]
  have hallc : ∀ a ∈ items.map commaRow, sectorsOfRawE a.affected_sectors =
      PyResult.ok (sectorsOfRaw a.affected_sectors) := by
    intro a ha
    obtain ⟨p, hp, rfl⟩ := List.mem_map.mp ha
    show sectorsOfRawE (some (comma_join p.2)) =
      PyResult.ok (sectorsOfRaw (some (comma_join p.2)))
    exact sectorsOfRawE_ok_of_doc_none (comma_join p.2) (hdoc p hp)
  have h1 := get_market_summaryE_ok _ hallj
  have h2 := get_market_summaryE_ok _ hallc
  refine ⟨h1, h2, ?_, ?_⟩
  · rw [h1, h2, (summary_repr_agree items hgood).1]
  · intro p hp
    have hj : sectorsOfRawE (some (json_dumps p.2)) =
        PyResult.ok (sectorsOfRaw (some (json_dumps p.2))) := by
      rw [sectorsOfRawE_json p.2 (hgood p hp), sectors_json p.2 (hgood p hp)]
    have hcx : sectorsOfRawE (some (comma_join p.2)) =
        PyResult.ok (sectorsOfRaw (some (comma_join p.2))) :=
      sectorsOfRawE_ok_of_doc_none (comma_join p.2) (hdoc p hp)
    refine ⟨classify_to_sectorE_ok _ hj, classify_to_sectorE_ok _ hcx, ?_⟩
    rw [classify_to_sectorE_ok _ hj, classify_to_sectorE_ok _ hcx,
      (summary_repr_agree items hgood).2 p hp]

/-- Closed instance of C9_sector_representation_amended: one classified item
tagged Technology and Real Estate, serialized the two ways, produces the
same crash-free snapshot. -/
theorem C9_sector_representation_amended_check :
    get_market_summaryE
        ([(exRow 1 "bullish" 40, ["Technology", "Real Estate"])].map jsonRow) =
      get_market_summaryE
        ([(exRow 1 "bullish" 40, ["Technology", "Real Estate"])].map commaRow) :=
  (C9_sector_representation_amended
    [(exRow 1 "bullish" 40, ["Technology", "Real Estate"])]
    (by decide) (by decide)).2.2.1
